import Mathlib

/-!
# GoSlice: linear infill pattern and G-code generator

A shallow embedding of `clip/linear.go` and `gcode/generator.go`.

* Lengths (`data.Micrometer`, `util.Micrometer`, `clipper.CInt`) are signed machine
  integers in the source; they are embedded as `Int`, i.e. all statements are about runs
  in which no coordinate overflows.
* The polygon kernel (`go.clipper`), the helpers of package `clip` that live outside the
  two embedded files and the standard library sort are capabilities: they are taken as
  parameters (`Kernel`, `Clip`, the argument `sort` of `linear.Fill`); `insertionSort` is
  the routine the standard library sort runs on short slices.
* A `for` loop whose termination depends on its arguments is embedded with explicit fuel
  and returns `none` when the fuel runs out.
* A run-time panic (index out of range, the explicit `panic` of `Fill`) is the result `none`
  of an `Option`-valued function.
-/

namespace GoSlice

/-! ## Data model -/

/-- A point of `clipper.IntPoint` / `data.MicroPoint`: integer micrometer coordinates. -/
structure IntPoint where
  X : Int
  Y : Int
deriving DecidableEq, Repr

/-- A path of `clipper.Path` / `data.Path`: a sequence of points. -/
abbrev Path := List IntPoint

/-- A list of paths: `clipper.Paths` / `data.Paths`. -/
abbrev Paths := List Path

/-- The struct `linear`: `paths` is the vertical grid, `paths2` the horizontal grid. -/
structure linear where
  paths : Paths
  paths2 : Paths
deriving DecidableEq, Repr

/-! ## `NewLinearPattern` (linear.go 31-95) -/

/-- Body of the first loop (lines 37-59): the vertical line at scan coordinate `x`,
running `max.Y → min.Y` on odd `numLine` and `min.Y → max.Y` otherwise. -/
def verticalLine (min max : IntPoint) (x : Int) (numLine : Nat) : Path :=
  if numLine % 2 = 1 then
    [⟨x, max.Y⟩, ⟨x, min.Y⟩]
  else
    [⟨x, min.Y⟩, ⟨x, max.Y⟩]

/-- Body of the second loop (lines 68-90): the horizontal line at scan coordinate `y`,
running `max.X → min.X` on odd `numLine` and `min.X → max.X` otherwise. -/
def horizontalLine (min max : IntPoint) (y : Int) (numLine : Nat) : Path :=
  if numLine % 2 = 1 then
    [⟨max.X, y⟩, ⟨min.X, y⟩]
  else
    [⟨min.X, y⟩, ⟨max.X, y⟩]

/-- The loop `for c := start; c <= limit; c += lineWidth { lines = append(lines, body c numLine);
numLine++ }`. One unit of fuel is spent per evaluation of the loop condition; `none` means
the fuel ran out before the condition became false. -/
def scanLoop (body : Int → Nat → Path) (limit lineWidth : Int) :
    Nat → Int → Nat → Paths → Option Paths
  | 0, _, _, _ => none
  | fuel + 1, c, numLine, lines =>
    if c ≤ limit then
      scanLoop body limit lineWidth fuel (c + lineWidth) (numLine + 1) (lines ++ [body c numLine])
    else
      some lines

/-- The function `NewLinearPattern`: both grids are built from empty slices with `numLine`
reset to `0`; each loop gets `fuel` iterations. -/
def NewLinearPattern (fuel : Nat) (min max : IntPoint) (lineWidth : Int) : Option linear :=
  match scanLoop (verticalLine min max) max.X lineWidth fuel min.X 0 [] with
  | none => none
  | some verticalLines =>
    match scanLoop (horizontalLine min max) max.Y lineWidth fuel min.Y 0 [] with
    | none => none
    | some horizontalLines => some { paths := verticalLines, paths2 := horizontalLines }

/-- Closed form of the number of iterations `scanLoop` makes when started at `c`
(used in the statements about the grids). -/
def scanCount (limit lineWidth c : Int) : Nat :=
  ((limit - c) / lineWidth + 1).toNat

/-! ## Regions and the geometry kernel -/

/-- Modelled from the spec: the region type `data.LayerPart` (package `data` is outside the
embedded files): one outline, zero or more holes, a classification tag and the integer the
constructor receives ("layer index" in the spec). -/
structure LayerPart where
  Outline : Path
  Holes : Paths
  Classification : String
  Index : Int
deriving DecidableEq, Repr

/-- Modelled from the spec: the constructor `data.NewUnknownLayerPart` (package `data`),
a region "tagged as an unknown classification region" at the given index. -/
def NewUnknownLayerPart (outline : Path) (holes : Paths) (index : Int) : LayerPart :=
  { Outline := outline, Holes := holes, Classification := "unknown", Index := index }

/-- The capabilities `linear.go` consumes and does not define. `PolyTree` is the kernel's
result type.
* `clipperPath`, `clipperPaths`, `microPath`, `microPaths`: the conversion helpers of
  package `clip`;
* `offset paths delta`: a fresh `ClipperOffset` with `paths` added (`JtSquare`,
  `EtClosedPolygon`, `MiterLimit = 2`) and `Execute(delta)`;
* `execute2 clip subject`: a fresh `Clipper` with `clip` added as closed clip paths and
  `subject` as open subject paths, then
  `Execute2(CtIntersection, PftEvenOdd, PftEvenOdd)`; `none` is `ok == false`;
* `childContours tree`: the contours of `tree.Childs()`, in order;
* `polyTreeToLayerParts tree`: the helper of package `clip` decomposing a tree into
  regions. -/
structure Kernel (PolyTree : Type) where
  clipperPath : Path → Path
  clipperPaths : Paths → Paths
  microPath : Path → Bool → Path
  microPaths : Paths → Bool → Paths
  offset : Paths → Rat → Paths
  execute2 : Paths → Paths → Option PolyTree
  childContours : PolyTree → Paths
  polyTreeToLayerParts : PolyTree → List LayerPart

/-! ## `verticalLinesByX` (linear.go 15-29) and the standard library sort -/

/-- The comparison `verticalLinesByX.Less`, on the two elements `a[i]`, `a[j]`:
`a[i].Outline()[0].X() < a[j].Outline()[0].X()`; `none` is the index panic on an empty
outline. -/
def verticalLinesByX.Less (ai aj : LayerPart) : Option Bool :=
  match ai.Outline, aj.Outline with
  | p :: _, q :: _ => some (decide (p.X < q.X))
  | _, _ => none

/-- Inner loop of the standard library's `insertionSort`,
`for j := i; j > a && data.Less(j, j-1); j-- { data.Swap(j, j-1) }`:
`x` is the element travelling left, the list is the part of the slice to its left, nearest
neighbour first; the result is that part with `x` inserted, again from right to left. -/
def sinkLeft (x : LayerPart) : List LayerPart → Option (List LayerPart)
  | [] => some [x]
  | y :: ys =>
    match verticalLinesByX.Less x y with
    | none => none
    | some true =>
      match sinkLeft x ys with
      | none => none
      | some r => some (y :: r)
    | some false => some (x :: y :: ys)

/-- Outer loop of `insertionSort`, `for i := a + 1; i < b; i++`: `sortedRev` is the sorted
part of the slice from right to left, the first argument is the rest of the slice. -/
def insertionSortFrom : List LayerPart → List LayerPart → Option (List LayerPart)
  | [], sortedRev => some sortedRev.reverse
  | x :: rest, sortedRev =>
    match sinkLeft x sortedRev with
    | none => none
    | some s => insertionSortFrom rest s

/-- The standard library's `insertionSort` on `verticalLinesByX`. `sort.Sort` runs exactly
this on a slice of at most 6 elements in every Go release (at most 12 since Go 1.19);
`none` is a panic raised by `Less`. -/
def insertionSort (data : List LayerPart) : Option (List LayerPart) :=
  insertionSortFrom data []

/-- What `sort.Sort` promises for a call `sort.Sort(verticalLinesByX(parts))`, seen as a
function from the slice before to the slice after (`none`: `Less` panicked): when no
outline is empty the call returns, and the slice is then a permutation of what it was in
which no later element is `Less` than an earlier one. Nothing is promised about the order
of elements that compare equal (`sort.Sort` is not stable). -/
def SortContract (sort : List LayerPart → Option (List LayerPart)) : Prop :=
  ∀ l : List LayerPart, (∀ a ∈ l, a.Outline ≠ []) →
    ∃ s, sort l = some s ∧ s.Perm l ∧
      s.Pairwise (fun a b => verticalLinesByX.Less b a ≠ some true)

/-! ## `linear.getInfill` (linear.go 170-212) -/

/-- Lines 174-189 of `getInfill`: the clip polygons, offset by the overlap when it is not
zero. The first component is `exset`, the second `holes`. -/
def linear.getInfillClip {T : Type} (k : Kernel T) (outline : Path) (holes : Paths)
    (overlap : Rat) : Paths × Paths :=
  if overlap ≠ 0 then
    (k.offset [outline] (-overlap), k.offset holes overlap)
  else
    ([outline], holes)

/-- Lines 195-199 of `getInfill`: the grid added as subject, `layerNr%2 == 0` with Go's
truncated remainder. -/
def linear.infillSubject (p : linear) (layerNr : Int) : Paths :=
  if layerNr.tmod 2 = 0 then p.paths else p.paths2

/-- The method `linear.getInfill`. The result `nil` (after a failed clip, or when the tree
has no childs) is the empty list. -/
def linear.getInfill {T : Type} (k : Kernel T) (p : linear) (layerNr : Int) (outline : Path)
    (holes : Paths) (overlap : Rat) : Paths :=
  let clip := linear.getInfillClip k outline holes overlap
  match k.execute2 (clip.1 ++ clip.2) (p.infillSubject layerNr) with
  | none => []
  | some tree => k.childContours tree

/-! ## `linear.Fill` (linear.go 97-167)

The two overlaps are `float32` values in the source. They are embedded as exact rationals:
the code only tests them against zero and hands them to the kernel, and for integer
arguments the `float32` product is zero exactly when the rational one is. -/

/-- Line 103: `insideOverlap`. -/
def linear.insideOverlap (lineWidth overlapPercentage additionalInternalOverlap : Int) : Rat :=
  (lineWidth : Rat) * (100 - ((overlapPercentage + additionalInternalOverlap : Int) : Rat)) / 100

/-- Line 106: `perimeterOverlap`. -/
def linear.perimeterOverlap (lineWidth overlapPercentage : Int) : Rat :=
  (lineWidth : Rat) * (100 - (overlapPercentage : Rat)) / 100

/-- Lines 112-137 of `Fill`: `(finalOutline, finalHoles)`, computed from the boundary region
(the source region when no boundary is given). -/
def linear.finalBoundary {T : Type} (k : Kernel T) (paths : LayerPart)
    (outline : Option LayerPart) (lineWidth overlapPercentage : Int) : Path × Paths :=
  let outline := match outline with
    | none => paths
    | some o => o
  if linear.perimeterOverlap lineWidth overlapPercentage ≠ 0 then
    let maxOutline := k.offset (k.clipperPath outline.Outline :: k.clipperPaths outline.Holes)
      (-(linear.perimeterOverlap lineWidth overlapPercentage))
    (maxOutline.headD [], maxOutline.tail)
  else
    (k.clipperPath outline.Outline, k.clipperPaths outline.Holes)

/-- Line 109 of `Fill`: `infillPaths`. -/
def linear.infillPaths {T : Type} (k : Kernel T) (p : linear) (layerNr : Int)
    (paths : LayerPart) (lineWidth overlapPercentage additionalInternalOverlap : Int) : Paths :=
  p.getInfill k layerNr (k.clipperPath paths.Outline) (k.clipperPaths paths.Holes)
    (linear.insideOverlap lineWidth overlapPercentage additionalInternalOverlap)

/-- Lines 157-165 of `Fill`: the outlines of the parts are appended in order; a part with a
hole panics. -/
def linear.collectOutlines : List LayerPart → Paths → Option Paths
  | [], resultInfill => some resultInfill
  | part :: rest, resultInfill =>
    if part.Holes.length > 0 then
      none
    else
      linear.collectOutlines rest (resultInfill ++ [part.Outline])

/-- Lines 148-166 of `Fill`: from the decomposed parts to the result; `sort` is
`sort.Sort(verticalLinesByX(·))`. -/
def linear.fillParts (sort : List LayerPart → Option (List LayerPart))
    (parts : List LayerPart) (boundary : LayerPart) : Option (Paths × Option LayerPart) :=
  if parts.length = 0 then
    some ([], some boundary)
  else
    match sort parts with
    | none => none
    | some sorted =>
      match linear.collectOutlines sorted [] with
      | none => none
      | some resultInfill => some (resultInfill, some boundary)

/-- The method `linear.Fill`. The result is the pair `(data.Paths, data.LayerPart)`, with
`nil` paths as the empty list and a `nil` region as `none`. -/
def linear.Fill {T : Type} (k : Kernel T) (sort : List LayerPart → Option (List LayerPart))
    (p : linear) (layerNr : Int) (paths : LayerPart) (outline : Option LayerPart)
    (lineWidth overlapPercentage additionalInternalOverlap : Int) :
    Option (Paths × Option LayerPart) :=
  let infillPaths :=
    p.infillPaths k layerNr paths lineWidth overlapPercentage additionalInternalOverlap
  let final := linear.finalBoundary k paths outline lineWidth overlapPercentage
  match k.execute2 (final.1 :: final.2) infillPaths with
  | none => some ([], none)
  | some res =>
    linear.fillParts sort (k.polyTreeToLayerParts res)
      (NewUnknownLayerPart (k.microPath final.1 false) (k.microPaths final.2 false) (-1))

/-! ## The generator (generator.go)

Speeds (`util.Millimeter`) are only copied, never computed with; they are embedded as
rationals, the zero value of the type being `0`. Layer numbers come from `range layers`
and are natural numbers. -/

/-- The struct `GCodePaths`. -/
structure GCodePaths where
  paths : Paths
  Speed : Rat
deriving DecidableEq, Repr

/-- A value stored in `map[string]interface{}`, by dynamic type: `[3][]GCodePaths`
(index 0, 1, 2 in that order), `[]data.Paths` (a `nil` slice is the empty list), or a value
of any other type. A missing key, the `nil` interface, is `none` in the map. -/
inductive Element where
  | perimeter (p0 p1 p2 : List GCodePaths)
  | pathsList (l : List Paths)
  | other (tag : Nat)
deriving DecidableEq, Repr

/-- The struct `LayerMetadata`; the map is a function from tag to stored value. -/
structure LayerMetadata where
  Elements : String → Option Element

/-- The assignment `m.Elements[key] = value`. -/
def LayerMetadata.set (m : LayerMetadata) (key : String) (value : Element) : LayerMetadata :=
  { Elements := fun t => if t = key then some value else m.Elements t }

/-- The fields of `options.Printer` read by the generator. -/
structure PrinterOptions where
  ExtrusionWidth : Int

/-- The fields of `options.Print` read by the generator. -/
structure PrintOptions where
  InsetCount : Int
  IntialLayerSpeed : Rat
  LayerSpeed : Rat
  OuterPerimeterSpeed : Rat
  InitialLayerThickness : Int
  LayerThickness : Int
  InfillOverlapPercent : Int

/-- The fields of `options.Filament` read by the generator. -/
structure FilamentOptions where
  FilamentDiameter : Int

/-- The fields of `data.Options` read by the generator. -/
structure Options where
  Printer : PrinterOptions
  Print : PrintOptions
  Filament : FilamentOptions

/-- A layer handed to the generator (`data.PartitionedLayer`): its regions. -/
abbrev PartitionedLayer := List LayerPart

/-- The capability returned by `clip.NewClip()`: `InsetLayer` yields, per region, per wall,
the loops from the outermost to the innermost; `Fill` yields the infill of a set of paths,
`none` being the `nil` result. -/
structure Clip where
  InsetLayer : PartitionedLayer → Int → Int → List (List (List Paths))
  Fill : Paths → Int → Int → Option Paths

/-- One entry of the builder's buffer. -/
inductive Emitted where
  | comment (text : String)
  | command (text : String)
  | polygon (path : Path) (z : Int) (extrudeSpeed : Rat)
      (layerThickness extrusionWidth filamentDiameter : Int)
deriving DecidableEq, Repr

/-- Modelled from the spec: the command builder `gcodeBuilder` (gcode/builder.go is outside
the embedded files). It "maintains current feed rate", the "layer thickness/width/
filament-diameter triple" and the accumulated output. A comment or a raw command is one
entry of the buffer; the traversal of a polygon is kept as one entry that records the
polygon, the height and the builder settings in force, the text of its positioning and
extrusion commands not being modelled. -/
structure gcodeBuilder where
  buf : List Emitted
  extrudeSpeed : Rat
  layerThickness : Int
  extrusionWidth : Int
  filamentDiameter : Int
deriving DecidableEq, Repr

/-- Modelled from the spec: `newGCodeBuilder`, an empty buffer and zero settings. -/
def newGCodeBuilder : gcodeBuilder :=
  { buf := [], extrudeSpeed := 0, layerThickness := 0, extrusionWidth := 0,
    filamentDiameter := 0 }

/-- Modelled from the spec: `addComment`, "append a free-text comment line". -/
def gcodeBuilder.addComment (b : gcodeBuilder) (text : String) : gcodeBuilder :=
  { b with buf := b.buf ++ [Emitted.comment text] }

/-- Modelled from the spec: `addCommand`, "append a verbatim raw command line". -/
def gcodeBuilder.addCommand (b : gcodeBuilder) (text : String) : gcodeBuilder :=
  { b with buf := b.buf ++ [Emitted.command text] }

/-- Modelled from the spec: `setExtrudeSpeed`, "update the active feed rate". -/
def gcodeBuilder.setExtrudeSpeed (b : gcodeBuilder) (speed : Rat) : gcodeBuilder :=
  { b with extrudeSpeed := speed }

/-- Modelled from the spec: `setExtrusion`, "update the active layer
thickness/width/filament-diameter triple". -/
def gcodeBuilder.setExtrusion (b : gcodeBuilder) (layerThickness extrusionWidth
    filamentDiameter : Int) : gcodeBuilder :=
  { b with layerThickness := layerThickness, extrusionWidth := extrusionWidth,
           filamentDiameter := filamentDiameter }

/-- Modelled from the spec: `addPolygon`, "emit a closed-polygon traversal at a given Z". -/
def gcodeBuilder.addPolygon (b : gcodeBuilder) (path : Path) (z : Int) : gcodeBuilder :=
  { b with buf := b.buf ++ [Emitted.polygon path z b.extrudeSpeed b.layerThickness
      b.extrusionWidth b.filamentDiameter] }

/-- The type `GeneratorStep`; `none` is a panic. -/
abbrev GeneratorStep :=
  Nat → List PartitionedLayer → List LayerMetadata → Options → Option LayerMetadata

/-- The type `RenderStep`: the builder is passed in and handed back; `none` is a panic. -/
abbrev RenderStep :=
  gcodeBuilder → Nat → List LayerMetadata → Int → Options → Option gcodeBuilder

/-- The struct `generator` (the unused field `gcode` is left out; the builder is created by
`init` and threaded through `Generate`). -/
structure generator where
  options : Options
  steps : List GeneratorStep
  renderers : List RenderStep

/-- The three local lists of the perimeters step (lines 39-41). -/
structure Perimeters where
  innerPerimeters : List GCodePaths
  outerPerimeters : List GCodePaths
  middlePerimeters : List GCodePaths
deriving DecidableEq, Repr

/-- Lines 50-80: the loop `for insetNum, wallInset := range wall`, from index `insetNum` on;
`lenWall` is `len(wall)`. -/
def wallLoop (layerNr : Nat) (options : Options) (lenWall : Nat) :
    Nat → List Paths → Perimeters → Perimeters
  | _, [], acc => acc
  | insetNum, wallInset :: rest, acc =>
    if insetNum = 0 then
      let speed : Rat := if layerNr > 0 then options.Print.OuterPerimeterSpeed else 0
      wallLoop layerNr options lenWall (insetNum + 1) rest
        { acc with outerPerimeters := acc.outerPerimeters ++ [{ paths := wallInset, Speed := speed }] }
    else
      let speed : Rat := if layerNr > 0 then options.Print.LayerSpeed else 0
      if insetNum > 0 ∧ (insetNum : Int) < (lenWall : Int) - 1 then
        wallLoop layerNr options lenWall (insetNum + 1) rest
          { acc with middlePerimeters := acc.middlePerimeters ++ [{ paths := wallInset, Speed := speed }] }
      else
        wallLoop layerNr options lenWall (insetNum + 1) rest
          { acc with innerPerimeters := acc.innerPerimeters ++ [{ paths := wallInset, Speed := speed }] }

/-- Lines 49-81: the loop `for _, wall := range part`. -/
def partLoop (layerNr : Nat) (options : Options) : List (List Paths) → Perimeters → Perimeters
  | [], acc => acc
  | wall :: rest, acc =>
    partLoop layerNr options rest (wallLoop layerNr options wall.length 0 wall acc)

/-- Lines 48-82: the loop `for _, part := range insetParts`. -/
def insetPartsLoop (layerNr : Nat) (options : Options) :
    List (List (List Paths)) → Perimeters → Perimeters
  | [], acc => acc
  | part :: rest, acc =>
    insetPartsLoop layerNr options rest (partLoop layerNr options part acc)

/-- The first step of `NewGenerator` (lines 37-91), "perimeters". -/
def perimetersStep (c : Clip) : GeneratorStep := fun layerNr layers meta options =>
  match layers[layerNr]? with
  | none => none
  | some layer =>
    let insetParts := c.InsetLayer layer options.Printer.ExtrusionWidth options.Print.InsetCount
    let r := insetPartsLoop layerNr options insetParts
      { innerPerimeters := [], outerPerimeters := [], middlePerimeters := [] }
    match meta[layerNr]? with
    | none => none
    | some m =>
      some (m.set "perimeter"
        (Element.perimeter r.outerPerimeters r.middlePerimeters r.innerPerimeters))

/-- Lines 103-109: the paths the bottom layer is filled from. -/
def bottomLayerSource (p0 p1 p2 : List GCodePaths) : List GCodePaths :=
  let innerPaths := p2
  let innerPaths := if innerPaths.length = 0 then p1 else innerPaths
  let innerPaths := if innerPaths.length = 0 then p0 else innerPaths
  innerPaths

/-- Lines 113-118: the loop `for _, paths := range innerPaths`. -/
def bottomLayerLoop (c : Clip) (options : Options) :
    List GCodePaths → List Paths → List Paths
  | [], bottomLayerInfill => bottomLayerInfill
  | paths :: rest, bottomLayerInfill =>
    match c.Fill paths.paths options.Printer.ExtrusionWidth options.Print.InfillOverlapPercent with
    | some infill => bottomLayerLoop c options rest (bottomLayerInfill ++ [infill])
    | none => bottomLayerLoop c options rest bottomLayerInfill

/-- The second step of `NewGenerator` (lines 94-122), "bottom layers". -/
def bottomLayersStep (c : Clip) : GeneratorStep := fun layerNr _layers meta options =>
  match meta[layerNr]? with
  | none => none
  | some m =>
    if layerNr = 0 then
      match m.Elements "perimeter" with
      | some (Element.perimeter p0 p1 p2) =>
        some (m.set "bottomLayer"
          (Element.pathsList (bottomLayerLoop c options (bottomLayerSource p0 p1 p2) [])))
      | _ => some m
    else
      some (m.set "bottomLayer" (Element.pathsList []))

/-- The renderer "pre layer" (lines 126-133). -/
def preLayerRenderer : RenderStep := fun builder layerNr _meta _z options =>
  let builder := builder.addComment ("LAYER:" ++ toString layerNr)
  if layerNr = 0 then
    some (builder.setExtrudeSpeed options.Print.IntialLayerSpeed)
  else
    some (builder.setExtrudeSpeed options.Print.LayerSpeed)

/-- The renderer "fan control" (lines 136-140). -/
def fanControlRenderer : RenderStep := fun builder layerNr _meta _z _options =>
  if layerNr = 2 then
    some (builder.addCommand "M106 ; enable fan")
  else
    some builder

/-- Lines 158-161: the loop `for _, path := range paths.paths`. -/
def renderPaths (speed : Rat) (z : Int) : Paths → gcodeBuilder → gcodeBuilder
  | [], builder => builder
  | path :: rest, builder =>
    renderPaths speed z rest ((builder.setExtrudeSpeed speed).addPolygon path z)

/-- Lines 157-162: the loop `for _, paths := range perimeter`. -/
def renderPerimeter (z : Int) : List GCodePaths → gcodeBuilder → gcodeBuilder
  | [], builder => builder
  | paths :: rest, builder =>
    renderPerimeter z rest (renderPaths paths.Speed z paths.paths builder)

/-- Lines 150-163: the loop `for i, perimeter := range p`, from index `i` on. -/
def renderPerimeters (z : Int) : Nat → List (List GCodePaths) → gcodeBuilder → gcodeBuilder
  | _, [], builder => builder
  | i, perimeter :: rest, builder =>
    let builder :=
      if i = 0 then builder.addComment "TYPE:WALL-OUTER" else builder.addComment "TYPE:WALL-INNER"
    renderPerimeters z (i + 1) rest (renderPerimeter z perimeter builder)

/-- The renderer "perimeters" (lines 143-164). -/
def perimetersRenderer : RenderStep := fun builder layerNr meta z _options =>
  match meta[layerNr]? with
  | none => none
  | some m =>
    match m.Elements "perimeter" with
    | some (Element.perimeter p0 p1 p2) => some (renderPerimeters z 0 [p0, p1, p2] builder)
    | _ => some builder

/-- Lines 180-182: the loop `for _, path := range paths`. -/
def renderBottomPaths (z : Int) : Paths → gcodeBuilder → gcodeBuilder
  | [], builder => builder
  | path :: rest, builder => renderBottomPaths z rest (builder.addPolygon path z)

/-- Lines 179-184: the loop `for _, paths := range layer`. -/
def renderBottomLayer (z : Int) : List Paths → gcodeBuilder → gcodeBuilder
  | [], builder => builder
  | paths :: rest, builder => renderBottomLayer z rest (renderBottomPaths z paths builder)

/-- The renderer "bottom layer" (lines 167-185). -/
def bottomLayerRenderer : RenderStep := fun builder layerNr meta z _options =>
  match meta[layerNr]? with
  | none => none
  | some m =>
    match m.Elements "bottomLayer" with
    | none => some builder
    | some (Element.pathsList layer) =>
      some (renderBottomLayer z layer (builder.addComment "bottomLayer"))
    | some _ => some builder

/-- The function `NewGenerator`; `c` is what `clip.NewClip()` returns. -/
def NewGenerator (c : Clip) (options : Options) : generator :=
  { options := options
    steps := [perimetersStep c, bottomLayersStep c]
    renderers := [preLayerRenderer, fanControlRenderer, perimetersRenderer, bottomLayerRenderer] }

/-- The method `init` (lines 190-202). -/
def generator.init (g : generator) : gcodeBuilder :=
  let b := newGCodeBuilder
  let b := b.addComment "Generated with GoSlice"
  let b := b.addCommand "G1 X0 Y20 Z0.2 F3000 ; get ready to prime"
  let b := b.addCommand "G92 E0 ; reset extrusion distance"
  let b := b.addCommand "G1 X200 E20 F600 ; prime nozzle"
  let b := b.addCommand "G1 Z5 F5000 ; lift nozzle"
  let b := b.addCommand "G92 E0 ; reset extrusion distance"
  b.setExtrusion g.options.Print.InitialLayerThickness g.options.Printer.ExtrusionWidth
    g.options.Filament.FilamentDiameter

/-- The method `finish` (lines 230-235); the result is the buffer. -/
def generator.finish (g : generator) (b : gcodeBuilder) : List Emitted :=
  let b := b.setExtrusion g.options.Print.LayerThickness g.options.Printer.ExtrusionWidth
    g.options.Filament.FilamentDiameter
  let b := b.addCommand "M107 ; enable fan"
  b.buf

/-- Lines 208-215 of `Generate`: one step applied to the layers `layerNrs` in turn. -/
def generator.stepLayers (g : generator) (step : GeneratorStep)
    (layers : List PartitionedLayer) : List Nat → List LayerMetadata → Option (List LayerMetadata)
  | [], meta => some meta
  | layerNr :: rest, meta =>
    let meta :=
      if meta.length ≤ layerNr then meta ++ [{ Elements := fun _ => none }] else meta
    match step layerNr layers meta g.options with
    | none => none
    | some m =>
      if layerNr < meta.length then
        generator.stepLayers g step layers rest (meta.set layerNr m)
      else
        none

/-- Lines 207-216 of `Generate`: the loop `for _, step := range g.steps`. -/
def generator.runSteps (g : generator) (layers : List PartitionedLayer) :
    List GeneratorStep → List LayerMetadata → Option (List LayerMetadata)
  | [], meta => some meta
  | step :: rest, meta =>
    match generator.stepLayers g step layers (List.range layers.length) meta with
    | none => none
    | some meta => generator.runSteps g layers rest meta

/-- Lines 221-224 of `Generate`: the loop `for _, renderer := range g.renderers` of one
layer; `z` is computed in the loop body, before each call. -/
def generator.renderLayer (g : generator) (meta : List LayerMetadata) (layerNr : Nat) :
    List RenderStep → gcodeBuilder → Option gcodeBuilder
  | [], builder => some builder
  | renderer :: rest, builder =>
    let z := g.options.Print.InitialLayerThickness + (layerNr : Int) * g.options.Print.LayerThickness
    match renderer builder layerNr meta z g.options with
    | none => none
    | some builder => generator.renderLayer g meta layerNr rest builder

/-- Lines 220-225 of `Generate`: the loop `for layerNr := range layers`. -/
def generator.renderLayers (g : generator) (meta : List LayerMetadata) :
    List Nat → gcodeBuilder → Option gcodeBuilder
  | [], builder => some builder
  | layerNr :: rest, builder =>
    match generator.renderLayer g meta layerNr g.renderers builder with
    | none => none
    | some builder => generator.renderLayers g meta rest builder

/-- The method `Generate` (lines 204-228). -/
def generator.Generate (g : generator) (layers : List PartitionedLayer) :
    Option (List Emitted) :=
  match generator.runSteps g layers g.steps [] with
  | none => none
  | some meta =>
    match generator.renderLayers g meta (List.range layers.length) g.init with
    | none => none
    | some builder => some (g.finish builder)

/-! ## Concrete inputs used in the statements below -/

/-- The X coordinate `Outline()[0].X()` that `Less` compares (`0` when the outline is
empty, where `Less` panics). -/
def LayerPart.firstX (a : LayerPart) : Int :=
  match a.Outline with
  | p :: _ => p.X
  | [] => 0

/-- A kernel whose clips always succeed and whose result decomposes into the given parts,
in the given order; conversions and offsets leave paths as they are. -/
def listingKernel (parts : List LayerPart) : Kernel Unit :=
  { clipperPath := fun path => path
    clipperPaths := fun paths => paths
    microPath := fun path _ => path
    microPaths := fun paths _ => paths
    offset := fun paths _ => paths
    execute2 := fun _ _ => some ()
    childContours := fun _ => []
    polyTreeToLayerParts := fun _ => parts }

/-- A kernel whose clip fails whenever there is a subject path and yields an empty result
otherwise. -/
def failingKernel : Kernel Unit :=
  { clipperPath := fun path => path
    clipperPaths := fun paths => paths
    microPath := fun path _ => path
    microPaths := fun paths _ => paths
    offset := fun paths _ => paths
    execute2 := fun _ subject => if subject.length = 0 then some () else none
    childContours := fun _ => []
    polyTreeToLayerParts := fun _ => [] }

/-- The square (0,0)-(10,10) with the square hole (4,4)-(6,6). -/
def squareWithHole : LayerPart :=
  { Outline := [⟨0, 0⟩, ⟨10, 0⟩, ⟨10, 10⟩, ⟨0, 10⟩]
    Holes := [[⟨4, 4⟩, ⟨4, 6⟩, ⟨6, 6⟩, ⟨6, 4⟩]]
    Classification := "unknown"
    Index := 0 }

/-- The piece of the grid line `X = 5` below the hole of `squareWithHole`. -/
def lowerSegment : LayerPart :=
  { Outline := [⟨5, 0⟩, ⟨5, 4⟩], Holes := [], Classification := "unknown", Index := -1 }

/-- The piece of the grid line `X = 5` above the hole of `squareWithHole`. -/
def upperSegment : LayerPart :=
  { Outline := [⟨5, 6⟩, ⟨5, 10⟩], Holes := [], Classification := "unknown", Index := -1 }

/-- A piece of the grid line `X = 3` inside `squareWithHole`. -/
def leftSegment : LayerPart :=
  { Outline := [⟨3, 10⟩, ⟨3, 0⟩], Holes := [], Classification := "unknown", Index := -1 }

/-- The grids for the box (0,0)-(10,10) with spacing 1 restricted to the lines used in the
examples. -/
def exampleGrid : linear :=
  { paths := [[⟨3, 10⟩, ⟨3, 0⟩], [⟨5, 0⟩, ⟨5, 10⟩]], paths2 := [[⟨0, 5⟩, ⟨10, 5⟩]] }

/-- An inset capability returning one region with a wall of three loops and a wall of one
loop, and a fill capability that returns the paths it is given. -/
def exampleClip : Clip :=
  { InsetLayer := fun _ _ _ =>
      [[[[[⟨0, 0⟩, ⟨9, 0⟩, ⟨9, 9⟩]], [[⟨1, 1⟩, ⟨8, 1⟩, ⟨8, 8⟩]], [[⟨2, 2⟩, ⟨7, 2⟩, ⟨7, 7⟩]]],
        [[[⟨20, 20⟩, ⟨29, 20⟩, ⟨29, 29⟩]]]]]
    Fill := fun paths _ _ => some paths }

/-- Options with extrusion width 400, initial layer thickness 300 and layer thickness 200
(micrometers). -/
def exampleOptions : Options :=
  { Printer := { ExtrusionWidth := 400 }
    Print := { InsetCount := 3, IntialLayerSpeed := 30, LayerSpeed := 60,
               OuterPerimeterSpeed := 40, InitialLayerThickness := 300, LayerThickness := 200,
               InfillOverlapPercent := 0 }
    Filament := { FilamentDiameter := 1750 } }

/-- Metadata with no tag set. -/
def emptyMetadata : LayerMetadata :=
  { Elements := fun _ => none }

/-- A renderer that records the height it is called with, as the height of a traversal of
the empty path. -/
def heightProbe : RenderStep := fun builder _ _ z _ =>
  some (builder.addPolygon [] z)

/-- The heights of the traversals in a buffer, in order. -/
def traversalHeights (out : List Emitted) : List Int :=
  out.filterMap (fun e =>
    match e with
    | Emitted.polygon _ z _ _ _ _ => some z
    | _ => none)

/-! ## Theorems -/

theorem scanCount_of_gt {limit w c : Int} (hw : 0 < w) (h : limit < c) :
    scanCount limit w c = 0 := by
  unfold scanCount
  have h1 : (limit - c) / w < 0 := Int.ediv_lt_of_lt_mul hw (by omega)
  omega

theorem scanCount_of_le {limit w c : Int} (hw : 0 < w) (h : c ≤ limit) :
    scanCount limit w c = scanCount limit w (c + w) + 1 := by
  unfold scanCount
  have h0 : 0 ≤ (limit - c) / w := Int.ediv_nonneg (by omega) hw.le
  have h1 : limit - (c + w) = (limit - c) + (-1) * w := by ring
  rw [h1, Int.add_mul_ediv_right _ _ hw.ne']
  omega

theorem scanLoop_eq {body : Int → Nat → Path} {limit w : Int} (hw : 0 < w) :
    ∀ (fuel : Nat) (c : Int) (n : Nat) (lines r : Paths),
      scanLoop body limit w fuel c n lines = some r →
      r = lines ++ (List.range (scanCount limit w c)).map
        (fun (i : Nat) => body (c + (i : Int) * w) (n + i)) := by
  intro fuel
  induction fuel with
  | zero => intro c n lines r h; simp [scanLoop] at h
  | succ fuel ih =>
    intro c n lines r h
    unfold scanLoop at h
    by_cases hc : c ≤ limit
    · rw [if_pos hc] at h
      have := ih _ _ _ _ h
      rw [this, scanCount_of_le hw hc, List.range_succ_eq_map]
      simp only [List.append_assoc, List.singleton_append, List.map_cons, List.map_map]
      congr 2
      · simp
      · apply List.map_congr_left
        intro i _
        simp only [Function.comp]
        congr 1
        · push_cast; ring
        · omega
    · rw [if_neg hc] at h
      rw [scanCount_of_gt hw (by omega)]
      simp at h
      simp [h]

theorem scanLoop_terminates {body : Int → Nat → Path} {limit w : Int} (hw : 0 < w) :
    ∀ (fuel : Nat) (c : Int) (n : Nat) (lines : Paths),
      scanCount limit w c < fuel → ∃ r, scanLoop body limit w fuel c n lines = some r := by
  intro fuel
  induction fuel with
  | zero => intro c n lines h; omega
  | succ fuel ih =>
    intro c n lines h
    unfold scanLoop
    by_cases hc : c ≤ limit
    · rw [if_pos hc]
      apply ih
      rw [scanCount_of_le hw hc] at h
      omega
    · rw [if_neg hc]
      exact ⟨_, rfl⟩

theorem scanLoop_grid {body : Int → Nat → Path} {limit w : Int} (hw : 0 < w)
    {fuel : Nat} {c : Int} {r : Paths} (h : scanLoop body limit w fuel c 0 [] = some r) :
    r = (List.range (scanCount limit w c)).map (fun (i : Nat) => body (c + (i : Int) * w) i) := by
  have := scanLoop_eq hw fuel c 0 [] r h
  simpa using this

theorem NewLinearPattern_terminates (min max : IntPoint) {w : Int} (hw : 0 < w) :
    ∃ fuel p, NewLinearPattern fuel min max w = some p := by
  refine ⟨scanCount max.X w min.X + scanCount max.Y w min.Y + 1, ?_⟩
  obtain ⟨v, hv⟩ := @scanLoop_terminates (verticalLine min max) max.X w hw
    (scanCount max.X w min.X + scanCount max.Y w min.Y + 1) min.X 0 [] (by omega)
  obtain ⟨h, hh⟩ := @scanLoop_terminates (horizontalLine min max) max.Y w hw
    (scanCount max.X w min.X + scanCount max.Y w min.Y + 1) min.Y 0 [] (by omega)
  exact ⟨⟨v, h⟩, by simp [NewLinearPattern, hv, hh]⟩

theorem NewLinearPattern_grids {min max : IntPoint} {w : Int} (hw : 0 < w) {fuel : Nat}
    {p : linear} (h : NewLinearPattern fuel min max w = some p) :
    p.paths = (List.range (scanCount max.X w min.X)).map
        (fun (i : Nat) => verticalLine min max (min.X + (i : Int) * w) i) ∧
    p.paths2 = (List.range (scanCount max.Y w min.Y)).map
        (fun (i : Nat) => horizontalLine min max (min.Y + (i : Int) * w) i) := by
  unfold NewLinearPattern at h
  cases hv : scanLoop (verticalLine min max) max.X w fuel min.X 0 [] with
  | none => simp [hv] at h
  | some v =>
    cases hh : scanLoop (horizontalLine min max) max.Y w fuel min.Y 0 [] with
    | none => simp [hv, hh] at h
    | some g =>
      simp only [hv, hh, Option.some.injEq] at h
      subst h
      exact ⟨scanLoop_grid hw hv, scanLoop_grid hw hh⟩

theorem floor_div_eq (a w : Int) (hw : 0 < w) : ⌊(a : ℚ) / (w : ℚ)⌋ = a / w := by
  have h := Rat.floor_intCast_div_natCast a w.toNat
  have hw2 : ((w.toNat : ℕ) : ℤ) = w := Int.toNat_of_nonneg hw.le
  have hw3 : ((w.toNat : ℕ) : ℚ) = (w : ℚ) := by
    have : (((w.toNat : ℕ) : ℤ) : ℚ) = (w : ℚ) := by rw [hw2]
    exact_mod_cast this
  rw [hw3, hw2] at h
  exact h

theorem scanCount_cast_of_le {limit w c : Int} (hw : 0 < w) (h : c ≤ limit) :
    ((scanCount limit w c : Nat) : Int) = (limit - c) / w + 1 := by
  unfold scanCount
  have h0 : 0 ≤ (limit - c) / w := Int.ediv_nonneg (by omega) hw.le
  omega

theorem scan_le_of_lt_scanCount {limit w c : Int} (hw : 0 < w) {i : Nat}
    (hi : i < scanCount limit w c) : c + (i : Int) * w ≤ limit := by
  unfold scanCount at hi
  have h1 : (i : Int) ≤ (limit - c) / w := by omega
  have h2 := (Int.le_ediv_iff_mul_le hw).1 h1
  omega

theorem scanCount_of_multiple {limit w c : Int} (hw : 0 < w) (k : Nat)
    (h : limit - c = (k : Int) * w) : scanCount limit w c = k + 1 := by
  unfold scanCount
  rw [h, Int.mul_ediv_cancel _ hw.ne']
  omega

/-- C1 (as the code has it): for a positive line spacing `NewLinearPattern` returns, and the
vertical grid has `⌊(max.X − min.X)/spacing⌋ + 1` lines when `min.X ≤ max.X` and none when
`max.X < min.X`; the horizontal grid likewise along Y. -/
theorem NewLinearPattern_line_count (min max : IntPoint) (w : Int) (hw : 0 < w) :
    (∃ fuel p, NewLinearPattern fuel min max w = some p) ∧
    ∀ fuel p, NewLinearPattern fuel min max w = some p →
      (min.X ≤ max.X →
        (p.paths.length : Int) = ⌊((max.X - min.X : Int) : ℚ) / (w : ℚ)⌋ + 1) ∧
      (max.X < min.X → p.paths.length = 0) ∧
      (min.Y ≤ max.Y →
        (p.paths2.length : Int) = ⌊((max.Y - min.Y : Int) : ℚ) / (w : ℚ)⌋ + 1) ∧
      (max.Y < min.Y → p.paths2.length = 0) := by
  refine ⟨NewLinearPattern_terminates min max hw, ?_⟩
  intro fuel p h
  obtain ⟨hv, hh⟩ := NewLinearPattern_grids hw h
  rw [floor_div_eq _ _ hw, floor_div_eq _ _ hw, hv, hh]
  simp only [List.length_map, List.length_range]
  refine ⟨fun hle => scanCount_cast_of_le hw hle, fun hlt => scanCount_of_gt hw hlt,
    fun hle => scanCount_cast_of_le hw hle, fun hlt => scanCount_of_gt hw hlt⟩

/-- Witness of C1: the box (0,0)-(5,5) with spacing 2. -/
theorem NewLinearPattern_line_count_witness :
    (0 : Int) < 2 ∧
    ((∃ fuel p, NewLinearPattern fuel ⟨0, 0⟩ ⟨5, 5⟩ 2 = some p) ∧
    ∀ fuel p, NewLinearPattern fuel ⟨0, 0⟩ ⟨5, 5⟩ 2 = some p →
      ((⟨0, 0⟩ : IntPoint).X ≤ (⟨5, 5⟩ : IntPoint).X →
        (p.paths.length : Int) =
          ⌊(((⟨5, 5⟩ : IntPoint).X - (⟨0, 0⟩ : IntPoint).X : Int) : ℚ) / ((2 : Int) : ℚ)⌋ + 1) ∧
      ((⟨5, 5⟩ : IntPoint).X < (⟨0, 0⟩ : IntPoint).X → p.paths.length = 0) ∧
      ((⟨0, 0⟩ : IntPoint).Y ≤ (⟨5, 5⟩ : IntPoint).Y →
        (p.paths2.length : Int) =
          ⌊(((⟨5, 5⟩ : IntPoint).Y - (⟨0, 0⟩ : IntPoint).Y : Int) : ℚ) / ((2 : Int) : ℚ)⌋ + 1) ∧
      ((⟨5, 5⟩ : IntPoint).Y < (⟨0, 0⟩ : IntPoint).Y → p.paths2.length = 0)) :=
  ⟨by decide, NewLinearPattern_line_count ⟨0, 0⟩ ⟨5, 5⟩ 2 (by decide)⟩

/-- Counterexample to C1 as stated: for the box (0,0)-(5,5) and spacing 2 the vertical grid
has the 3 lines at X = 0, 2, 4 (and the horizontal grid 3 lines), while
`⌈(5 − 0)/2⌉ + 1 = 4`. -/
theorem NewLinearPattern_line_count_counterexample :
    (NewLinearPattern 10 ⟨0, 0⟩ ⟨5, 5⟩ 2).map (fun p => (p.paths.length, p.paths2.length))
      = some (3, 3) ∧
    ⌈(((5 : Int) - 0 : Int) : ℚ) / ((2 : Int) : ℚ)⌉ + 1 = 4 := by
  refine ⟨by decide, ?_⟩
  have : ⌈(((5 : Int) - 0 : Int) : ℚ) / ((2 : Int) : ℚ)⌉ = 3 := by
    rw [Int.ceil_eq_iff]
    norm_num
  omega

theorem getElem?_range_map {α : Type} (f : Nat → α) (n i : Nat) (hi : i < n) :
    ((List.range n).map f)[i]? = some (f i) := by
  simp [hi]

/-- C2: for a positive spacing `NewLinearPattern` returns, and line `i` of the vertical grid
is the 2-point line at `X = min.X + i·spacing ≤ max.X`, from `(X, min.Y)` to `(X, max.Y)` for
even `i` and from `(X, max.Y)` to `(X, min.Y)` for odd `i`; line `i` of the horizontal grid
is at `Y = min.Y + i·spacing ≤ max.Y`, from `min.X` to `max.X` for even `i` and back for odd
`i`; and when `max − min` is `k·spacing` for a natural `k`, line `k` lies on the max
boundary. -/
theorem NewLinearPattern_lines (min max : IntPoint) (w : Int) (hw : 0 < w) :
    (∃ fuel p, NewLinearPattern fuel min max w = some p) ∧
    ∀ fuel p, NewLinearPattern fuel min max w = some p →
      (∀ i : Nat, i < p.paths.length →
        min.X + (i : Int) * w ≤ max.X ∧
        p.paths[i]? = some
          (if i % 2 = 0 then
            [⟨min.X + (i : Int) * w, min.Y⟩, ⟨min.X + (i : Int) * w, max.Y⟩]
          else
            [⟨min.X + (i : Int) * w, max.Y⟩, ⟨min.X + (i : Int) * w, min.Y⟩])) ∧
      (∀ i : Nat, i < p.paths2.length →
        min.Y + (i : Int) * w ≤ max.Y ∧
        p.paths2[i]? = some
          (if i % 2 = 0 then
            [⟨min.X, min.Y + (i : Int) * w⟩, ⟨max.X, min.Y + (i : Int) * w⟩]
          else
            [⟨max.X, min.Y + (i : Int) * w⟩, ⟨min.X, min.Y + (i : Int) * w⟩])) ∧
      (∀ k : Nat, max.X - min.X = (k : Int) * w →
        p.paths[k]? = some
          (if k % 2 = 0 then [⟨max.X, min.Y⟩, ⟨max.X, max.Y⟩]
           else [⟨max.X, max.Y⟩, ⟨max.X, min.Y⟩])) ∧
      (∀ k : Nat, max.Y - min.Y = (k : Int) * w →
        p.paths2[k]? = some
          (if k % 2 = 0 then [⟨min.X, max.Y⟩, ⟨max.X, max.Y⟩]
           else [⟨max.X, max.Y⟩, ⟨min.X, max.Y⟩])) := by
  refine ⟨NewLinearPattern_terminates min max hw, ?_⟩
  intro fuel p h
  obtain ⟨hv, hh⟩ := NewLinearPattern_grids hw h
  have hlv : p.paths.length = scanCount max.X w min.X := by simp [hv]
  have hlh : p.paths2.length = scanCount max.Y w min.Y := by simp [hh]
  refine ⟨?_, ?_, ?_, ?_⟩
  · intro i hi
    rw [hlv] at hi
    refine ⟨scan_le_of_lt_scanCount hw hi, ?_⟩
    rw [hv, getElem?_range_map _ _ _ hi]
    unfold verticalLine
    rcases Nat.mod_two_eq_zero_or_one i with h0 | h1
    · simp [h0]
    · simp [h1]
  · intro i hi
    rw [hlh] at hi
    refine ⟨scan_le_of_lt_scanCount hw hi, ?_⟩
    rw [hh, getElem?_range_map _ _ _ hi]
    unfold horizontalLine
    rcases Nat.mod_two_eq_zero_or_one i with h0 | h1
    · simp [h0]
    · simp [h1]
  · intro k hk
    have hc := scanCount_of_multiple hw k hk
    have hx : min.X + (k : Int) * w = max.X := by omega
    rw [hv, getElem?_range_map _ _ _ (by omega), hx]
    unfold verticalLine
    rcases Nat.mod_two_eq_zero_or_one k with h0 | h1
    · simp [h0]
    · simp [h1]
  · intro k hk
    have hc := scanCount_of_multiple hw k hk
    have hy : min.Y + (k : Int) * w = max.Y := by omega
    rw [hh, getElem?_range_map _ _ _ (by omega), hy]
    unfold horizontalLine
    rcases Nat.mod_two_eq_zero_or_one k with h0 | h1
    · simp [h0]
    · simp [h1]


/-- Witness of C2: the box (0,0)-(4,6) with spacing 2, where both extents are multiples
of the spacing. -/
theorem NewLinearPattern_lines_witness :
    (0 : Int) < 2 ∧
    (∃ fuel p, NewLinearPattern fuel ⟨0, 0⟩ ⟨4, 6⟩ 2 = some p) ∧
    (NewLinearPattern 10 ⟨0, 0⟩ ⟨4, 6⟩ 2).map (fun p => p.paths[2]?)
      = some (some [⟨4, 0⟩, ⟨4, 6⟩]) ∧
    (NewLinearPattern 10 ⟨0, 0⟩ ⟨4, 6⟩ 2).map (fun p => p.paths2[3]?)
      = some (some [⟨4, 6⟩, ⟨0, 6⟩]) := by
  have h := NewLinearPattern_lines ⟨0, 0⟩ ⟨4, 6⟩ 2 (by decide)
  refine ⟨by decide, h.1, ?_, ?_⟩
  · cases hp : NewLinearPattern 10 ⟨0, 0⟩ ⟨4, 6⟩ 2 with
    | none => exact absurd hp (by decide)
    | some p =>
      have h3 := (h.2 10 p hp).2.2.1 2 (by decide)
      simpa using h3
  · cases hp : NewLinearPattern 10 ⟨0, 0⟩ ⟨4, 6⟩ 2 with
    | none => exact absurd hp (by decide)
    | some p =>
      have h4 := (h.2 10 p hp).2.2.2 3 (by decide)
      simpa using h4


/-! ### The sort -/

theorem Less_eq {a b : LayerPart} (ha : a.Outline ≠ []) (hb : b.Outline ≠ []) :
    verticalLinesByX.Less a b = some (decide (a.firstX < b.firstX)) := by
  unfold verticalLinesByX.Less LayerPart.firstX
  cases hoa : a.Outline with
  | nil => exact absurd hoa ha
  | cons pa ta =>
    cases hob : b.Outline with
    | nil => exact absurd hob hb
    | cons pb tb => rfl

theorem sinkLeft_spec (x : LayerPart) (hx : x.Outline ≠ []) :
    ∀ ys : List LayerPart, (∀ a ∈ ys, a.Outline ≠ []) →
      ys.Pairwise (fun a b => b.firstX ≤ a.firstX) →
      ∃ r, sinkLeft x ys = some r ∧ r.Perm (x :: ys) ∧
        r.Pairwise (fun a b => b.firstX ≤ a.firstX) := by
  intro ys
  induction ys with
  | nil => intro _ _; exact ⟨[x], rfl, List.Perm.refl _, by simp⟩
  | cons y ys ih =>
    intro hne hs
    have hy : y.Outline ≠ [] := hne y (List.mem_cons_self _ _)
    have hys : ∀ a ∈ ys, a.Outline ≠ [] := fun a ha => hne a (List.mem_cons_of_mem _ ha)
    rw [List.pairwise_cons] at hs
    unfold sinkLeft
    rw [Less_eq hx hy]
    by_cases hlt : x.firstX < y.firstX
    · obtain ⟨r, hr, hperm, hsorted⟩ := ih hys hs.2
      refine ⟨y :: r, by simp [hlt, hr], ?_, ?_⟩
      · exact (List.Perm.cons y hperm).trans (List.Perm.swap x y ys)
      · rw [List.pairwise_cons]
        refine ⟨?_, hsorted⟩
        intro a ha
        rcases List.mem_cons.1 (hperm.subset ha) with h | h
        · subst h; omega
        · exact hs.1 a h
    · refine ⟨x :: y :: ys, by simp [hlt], List.Perm.refl _, ?_⟩
      rw [List.pairwise_cons, List.pairwise_cons]
      refine ⟨?_, hs⟩
      intro a ha
      rcases List.mem_cons.1 ha with h | h
      · subst h; omega
      · have := hs.1 a h
        omega

theorem insertionSortFrom_spec :
    ∀ (rest sortedRev : List LayerPart), (∀ a ∈ rest, a.Outline ≠ []) →
      (∀ a ∈ sortedRev, a.Outline ≠ []) →
      sortedRev.Pairwise (fun a b => b.firstX ≤ a.firstX) →
      ∃ s, insertionSortFrom rest sortedRev = some s ∧ s.Perm (sortedRev ++ rest) ∧
        s.Pairwise (fun a b => a.firstX ≤ b.firstX) := by
  intro rest
  induction rest with
  | nil =>
    intro sortedRev _ _ hs
    refine ⟨sortedRev.reverse, rfl, ?_, ?_⟩
    · simp
    · rw [List.pairwise_reverse]
      exact hs
  | cons x rest ih =>
    intro sortedRev hrest hrev hs
    have hx : x.Outline ≠ [] := hrest x (List.mem_cons_self _ _)
    obtain ⟨r, hr, hperm, hsorted⟩ := sinkLeft_spec x hx sortedRev hrev hs
    have hrne : ∀ a ∈ r, a.Outline ≠ [] := by
      intro a ha
      rcases List.mem_cons.1 (hperm.subset ha) with h | h
      · subst h; exact hx
      · exact hrev a h
    obtain ⟨s, hs1, hs2, hs3⟩ :=
      ih r (fun a ha => hrest a (List.mem_cons_of_mem _ ha)) hrne hsorted
    refine ⟨s, ?_, ?_, hs3⟩
    · unfold insertionSortFrom
      simp [hr, hs1]
    · refine hs2.trans ?_
      refine (List.Perm.append_right rest hperm).trans ?_
      have hmid : (sortedRev ++ x :: rest).Perm (x :: (sortedRev ++ rest)) := List.perm_middle
      simpa using hmid.symm

theorem Less_ne_true_of_le {a b : LayerPart} (ha : a.Outline ≠ []) (hb : b.Outline ≠ [])
    (h : a.firstX ≤ b.firstX) : verticalLinesByX.Less b a ≠ some true := by
  rw [Less_eq hb ha]
  simp
  omega

theorem le_of_Less_ne_true {a b : LayerPart} (ha : a.Outline ≠ []) (hb : b.Outline ≠ [])
    (h : verticalLinesByX.Less b a ≠ some true) : a.firstX ≤ b.firstX := by
  rw [Less_eq hb ha] at h
  simp at h
  omega

theorem insertionSort_contract : SortContract insertionSort := by
  intro l hl
  obtain ⟨s, hs1, hs2, hs3⟩ := insertionSortFrom_spec l [] hl (by simp) (by simp)
  refine ⟨s, hs1, by simpa using hs2, ?_⟩
  have hsne : ∀ a ∈ s, a.Outline ≠ [] := fun a ha => hl a (by simpa using hs2.subset ha)
  exact hs3.imp_of_mem (fun {a b} ha hb h => Less_ne_true_of_le (hsne a ha) (hsne b hb) h)

/-! ### `Fill` -/

theorem collectOutlines_eq :
    ∀ (l : List LayerPart) (acc : Paths), (∀ a ∈ l, a.Holes = []) →
      linear.collectOutlines l acc = some (acc ++ l.map (fun a => a.Outline)) := by
  intro l
  induction l with
  | nil => intro acc _; simp [linear.collectOutlines]
  | cons a l ih =>
    intro acc h
    have ha : a.Holes = [] := h a (List.mem_cons_self _ _)
    unfold linear.collectOutlines
    rw [ha]
    simp only [List.length_nil, gt_iff_lt, Nat.lt_irrefl, if_false]
    rw [ih _ (fun b hb => h b (List.mem_cons_of_mem _ hb))]
    simp

theorem Fill_of_clip {T : Type} (k : Kernel T) (sort : List LayerPart → Option (List LayerPart))
    (p : linear) (layerNr : Int) (paths : LayerPart) (outline : Option LayerPart)
    (lineWidth overlapPercentage additionalInternalOverlap : Int) (res : T)
    (hclip : k.execute2
      ((linear.finalBoundary k paths outline lineWidth overlapPercentage).1 ::
        (linear.finalBoundary k paths outline lineWidth overlapPercentage).2)
      (p.infillPaths k layerNr paths lineWidth overlapPercentage additionalInternalOverlap)
        = some res) :
    p.Fill k sort layerNr paths outline lineWidth overlapPercentage additionalInternalOverlap =
      linear.fillParts sort (k.polyTreeToLayerParts res)
        (NewUnknownLayerPart
          (k.microPath (linear.finalBoundary k paths outline lineWidth overlapPercentage).1 false)
          (k.microPaths (linear.finalBoundary k paths outline lineWidth overlapPercentage).2 false)
          (-1)) := by
  unfold linear.Fill
  simp only [hclip]

theorem fillParts_sorted {sort : List LayerPart → Option (List LayerPart)}
    (hsort : SortContract sort) {parts : List LayerPart} (hne : parts ≠ [])
    (hout : ∀ a ∈ parts, a.Outline ≠ []) (boundary : LayerPart) :
    ∃ s, sort parts = some s ∧ s.Perm parts ∧
      s.Pairwise (fun a b => a.firstX ≤ b.firstX) ∧
      linear.fillParts sort parts boundary =
        (linear.collectOutlines s []).map (fun r => (r, some boundary)) := by
  obtain ⟨s, hs1, hs2, hs3⟩ := hsort parts hout
  have hsne : ∀ a ∈ s, a.Outline ≠ [] := fun a ha => hout a (hs2.subset ha)
  refine ⟨s, hs1, hs2, ?_, ?_⟩
  · exact hs3.imp_of_mem (fun {a b} ha hb h => le_of_Less_ne_true (hsne a ha) (hsne b hb) h)
  · unfold linear.fillParts
    have hlen : parts.length ≠ 0 := by
      intro h
      exact hne (List.length_eq_zero.1 h)
    rw [if_neg hlen, hs1]
    cases hc : linear.collectOutlines s [] <;> simp [hc]


theorem head?_of_outline_ne {a : LayerPart} (ha : a.Outline ≠ []) :
    ∃ pa, a.Outline.head? = some pa ∧ pa.X = a.firstX := by
  unfold LayerPart.firstX
  cases hoa : a.Outline with
  | nil => exact absurd hoa ha
  | cons pa ta => exact ⟨pa, rfl, rfl⟩

/-- C3: when the sort meets the contract of `sort.Sort`, the second clip succeeds and its
result decomposes into at least one part, every part having a non-empty outline and no
hole, `Fill` returns segments that are a permutation of the outlines of those parts, and the
X coordinates of the first points of the segments are non-decreasing along the list. -/
theorem Fill_sorted_permutation {T : Type} (k : Kernel T)
    (sort : List LayerPart → Option (List LayerPart)) (hsort : SortContract sort)
    (p : linear) (layerNr : Int) (paths : LayerPart) (outline : Option LayerPart)
    (lineWidth overlapPercentage additionalInternalOverlap : Int) (res : T)
    (hclip : k.execute2
      ((linear.finalBoundary k paths outline lineWidth overlapPercentage).1 ::
        (linear.finalBoundary k paths outline lineWidth overlapPercentage).2)
      (p.infillPaths k layerNr paths lineWidth overlapPercentage additionalInternalOverlap)
        = some res)
    (hne : k.polyTreeToLayerParts res ≠ [])
    (hparts : ∀ a ∈ k.polyTreeToLayerParts res, a.Outline ≠ [] ∧ a.Holes = []) :
    ∃ segs boundary,
      p.Fill k sort layerNr paths outline lineWidth overlapPercentage additionalInternalOverlap
        = some (segs, boundary) ∧
      segs.Perm ((k.polyTreeToLayerParts res).map (fun a => a.Outline)) ∧
      segs.Pairwise (fun a b => ∃ pa pb, a.head? = some pa ∧ b.head? = some pb ∧ pa.X ≤ pb.X) := by
  rw [Fill_of_clip k sort p layerNr paths outline lineWidth overlapPercentage
    additionalInternalOverlap res hclip]
  obtain ⟨s, _, hperm, hsorted, hfill⟩ :=
    fillParts_sorted hsort hne (fun a ha => (hparts a ha).1)
      (NewUnknownLayerPart
        (k.microPath (linear.finalBoundary k paths outline lineWidth overlapPercentage).1 false)
        (k.microPaths (linear.finalBoundary k paths outline lineWidth overlapPercentage).2 false)
        (-1))
  have hholes : ∀ a ∈ s, a.Holes = [] := fun a ha => (hparts a (hperm.subset ha)).2
  have hout : ∀ a ∈ s, a.Outline ≠ [] := fun a ha => (hparts a (hperm.subset ha)).1
  rw [hfill, collectOutlines_eq s [] hholes]
  refine ⟨s.map (fun a => a.Outline), some (NewUnknownLayerPart
      (k.microPath (linear.finalBoundary k paths outline lineWidth overlapPercentage).1 false)
      (k.microPaths (linear.finalBoundary k paths outline lineWidth overlapPercentage).2 false)
      (-1)), by simp, hperm.map _, ?_⟩
  rw [List.pairwise_map]
  refine hsorted.imp_of_mem ?_
  intro a b ha hb hle
  obtain ⟨pa, hpa, hxa⟩ := head?_of_outline_ne (hout a ha)
  obtain ⟨pb, hpb, hxb⟩ := head?_of_outline_ne (hout b hb)
  exact ⟨pa, pb, hpa, hpb, by omega⟩

/-- Witness of C3: three pieces of grid lines, listed out of order, sorted by insertion. -/
theorem Fill_sorted_permutation_witness :
    ∃ segs boundary,
      exampleGrid.Fill (listingKernel [lowerSegment, leftSegment, upperSegment]) insertionSort
        0 squareWithHole none 1 0 0 = some (segs, boundary) ∧
      segs.Perm
        ([lowerSegment, leftSegment, upperSegment].map (fun a => a.Outline)) ∧
      segs.Pairwise (fun a b => ∃ pa pb, a.head? = some pa ∧ b.head? = some pb ∧ pa.X ≤ pb.X) :=
  Fill_sorted_permutation (listingKernel [lowerSegment, leftSegment, upperSegment])
    insertionSort insertionSort_contract exampleGrid 0 squareWithHole none 1 0 0 () rfl
    (by simp [listingKernel]) (by decide)

theorem eq_of_map_eq_of_injOn {α β : Type} (f : α → β) :
    ∀ l₁ l₂ : List α, (∀ x ∈ l₁, ∀ y ∈ l₂, f x = f y → x = y) →
      l₁.map f = l₂.map f → l₁ = l₂ := by
  intro l₁
  induction l₁ with
  | nil =>
    intro l₂ _ h
    cases l₂ with
    | nil => rfl
    | cons b l₂ => simp at h
  | cons a l₁ ih =>
    intro l₂ hinj h
    cases l₂ with
    | nil => simp at h
    | cons b l₂ =>
      simp only [List.map_cons, List.cons.injEq] at h
      have hab : a = b := hinj a (List.mem_cons_self _ _) b (List.mem_cons_self _ _) h.1
      have htl : l₁ = l₂ :=
        ih l₂ (fun x hx y hy => hinj x (List.mem_cons_of_mem _ hx) y (List.mem_cons_of_mem _ hy))
          h.2
      rw [hab, htl]

theorem sorted_perm_unique {s₁ s₂ : List LayerPart} (hperm : s₁.Perm s₂)
    (h₁ : s₁.Pairwise (fun a b => a.firstX ≤ b.firstX))
    (h₂ : s₂.Pairwise (fun a b => a.firstX ≤ b.firstX))
    (hd : s₁.Pairwise (fun a b => a.firstX ≠ b.firstX)) : s₁ = s₂ := by
  have hkeys : s₁.map LayerPart.firstX = s₂.map LayerPart.firstX := by
    have hs₁ : (s₁.map LayerPart.firstX).Sorted (fun x y => x ≤ y) := List.pairwise_map.2 h₁
    have hs₂ : (s₂.map LayerPart.firstX).Sorted (fun x y => x ≤ y) := List.pairwise_map.2 h₂
    exact List.eq_of_perm_of_sorted (hperm.map _) hs₁ hs₂
  have hnodup : (s₁.map LayerPart.firstX).Nodup := List.pairwise_map.2 hd
  apply eq_of_map_eq_of_injOn LayerPart.firstX s₁ s₂ _ hkeys
  intro x hx y hy hxy
  exact List.inj_on_of_nodup_map hnodup hx (hperm.symm.subset hy) hxy

theorem fillParts_perm {sort : List LayerPart → Option (List LayerPart)}
    (hsort : SortContract sort) {l₁ l₂ : List LayerPart} (hperm : l₁.Perm l₂)
    (hout : ∀ a ∈ l₁, a.Outline ≠ [])
    (hd : l₁.Pairwise (fun a b => a.firstX ≠ b.firstX)) (boundary : LayerPart) :
    linear.fillParts sort l₁ boundary = linear.fillParts sort l₂ boundary := by
  by_cases hnil : l₁ = []
  · subst hnil
    have : l₂ = [] := List.Perm.nil_eq hperm ▸ rfl
    rw [this]
  · have hnil₂ : l₂ ≠ [] := by
      intro h
      rw [h] at hperm
      exact hnil (List.Perm.eq_nil hperm)
    have hout₂ : ∀ a ∈ l₂, a.Outline ≠ [] := fun a ha => hout a (hperm.symm.subset ha)
    obtain ⟨s₁, _, hp₁, hs₁, hf₁⟩ := fillParts_sorted hsort hnil hout boundary
    obtain ⟨s₂, _, hp₂, hs₂, hf₂⟩ := fillParts_sorted hsort hnil₂ hout₂ boundary
    have hd₁ : s₁.Pairwise (fun a b => a.firstX ≠ b.firstX) :=
      (List.Perm.pairwise_iff (fun {a b} h => Ne.symm h) hp₁).2 hd
    have : s₁ = s₂ := sorted_perm_unique (hp₁.trans (hperm.trans hp₂.symm)) hs₁ hs₂ hd₁
    rw [hf₁, hf₂, this]

/-- C4 (as the code has it): when no decomposed part has an empty outline and no two of
them share the X coordinate of their first outline point, the result of `Fill` does not
depend on the order in which the parts of the clip result are listed, for every sort that
meets the contract of `sort.Sort`. -/
theorem Fill_order_independent {T : Type} (k : Kernel T)
    (sort : List LayerPart → Option (List LayerPart)) (hsort : SortContract sort)
    (listing₁ listing₂ : T → List LayerPart)
    (p : linear) (layerNr : Int) (paths : LayerPart) (outline : Option LayerPart)
    (lineWidth overlapPercentage additionalInternalOverlap : Int)
    (hperm : ∀ t, (listing₁ t).Perm (listing₂ t))
    (hout : ∀ t, ∀ a ∈ listing₁ t, a.Outline ≠ [])
    (hdistinct : ∀ t, (listing₁ t).Pairwise (fun a b => a.firstX ≠ b.firstX)) :
    p.Fill { k with polyTreeToLayerParts := listing₁ } sort layerNr paths outline lineWidth
        overlapPercentage additionalInternalOverlap =
      p.Fill { k with polyTreeToLayerParts := listing₂ } sort layerNr paths outline lineWidth
        overlapPercentage additionalInternalOverlap := by
  unfold linear.Fill
  simp only [linear.infillPaths, linear.getInfill, linear.getInfillClip, linear.finalBoundary]
  split
  · rfl
  · exact fillParts_perm hsort (hperm _) (hout _) (hdistinct _) _

/-- Witness of C4 (amended): two pieces with first points at `X = 3` and `X = 5`, listed in
either order. -/
theorem Fill_order_independent_witness :
    exampleGrid.Fill
        { listingKernel [] with polyTreeToLayerParts := fun _ => [lowerSegment, leftSegment] }
        insertionSort 0 squareWithHole none 1 0 0 =
      exampleGrid.Fill
        { listingKernel [] with polyTreeToLayerParts := fun _ => [leftSegment, lowerSegment] }
        insertionSort 0 squareWithHole none 1 0 0 :=
  Fill_order_independent (listingKernel []) insertionSort insertionSort_contract
    (fun _ => [lowerSegment, leftSegment]) (fun _ => [leftSegment, lowerSegment])
    exampleGrid 0 squareWithHole none 1 0 0
    (fun _ => List.Perm.swap _ _ _)
    (fun _ => (by decide : ∀ a ∈ [lowerSegment, leftSegment], a.Outline ≠ []))
    (fun _ => (by decide :
      [lowerSegment, leftSegment].Pairwise (fun a b => a.firstX ≠ b.firstX)))

/-- Counterexample to C4 as stated: the grid line `X = 5` crosses the hole of
`squareWithHole` and leaves two pieces whose first points both have `X = 5`. With the
insertion sort that `sort.Sort` runs on short slices, which meets the contract of
`sort.Sort`, `Fill` returns the two pieces in the order in which the kernel listed them. -/
theorem Fill_order_dependent_counterexample :
    SortContract insertionSort ∧
    [lowerSegment, upperSegment].Perm [upperSegment, lowerSegment] ∧
    (exampleGrid.Fill (listingKernel [lowerSegment, upperSegment]) insertionSort
        0 squareWithHole none 1 0 0).map Prod.fst
      = some [[⟨5, 0⟩, ⟨5, 4⟩], [⟨5, 6⟩, ⟨5, 10⟩]] ∧
    (exampleGrid.Fill (listingKernel [upperSegment, lowerSegment]) insertionSort
        0 squareWithHole none 1 0 0).map Prod.fst
      = some [[⟨5, 6⟩, ⟨5, 10⟩], [⟨5, 0⟩, ⟨5, 4⟩]] := by
  refine ⟨insertionSort_contract, List.Perm.swap _ _ _, ?_, ?_⟩
  · rw [Fill_of_clip (listingKernel [lowerSegment, upperSegment]) insertionSort exampleGrid 0
      squareWithHole none 1 0 0 () rfl]
    rfl
  · rw [Fill_of_clip (listingKernel [upperSegment, lowerSegment]) insertionSort exampleGrid 0
      squareWithHole none 1 0 0 () rfl]
    rfl


theorem tmod_two_eq_zero_iff (n : Int) : n.tmod 2 = 0 ↔ n % 2 = 0 := by
  rw [← Int.dvd_iff_tmod_eq_zero, Int.dvd_iff_emod_eq_zero]

theorem infillSubject_even (p : linear) {n : Int} (h : n % 2 = 0) :
    p.infillSubject n = p.paths := by
  unfold linear.infillSubject
  have : n.tmod 2 = 0 := by
    rw [tmod_two_eq_zero_iff]
    exact h
  rw [if_pos this]

theorem infillSubject_odd (p : linear) {n : Int} (h : n % 2 = 1) :
    p.infillSubject n = p.paths2 := by
  unfold linear.infillSubject
  have : ¬ n.tmod 2 = 0 := by
    rw [tmod_two_eq_zero_iff]
    omega
  rw [if_neg this]

/-- C5: `getInfill` runs the kernel's intersection with, as subject, the vertical grid
`p.paths` when the layer number is even and the horizontal grid `p.paths2` when it is odd;
so of two consecutive layer numbers one gets the vertical and the other the horizontal
grid. -/
theorem getInfill_subject_parity {T : Type} (k : Kernel T) (p : linear) (n : Int)
    (outline : Path) (holes : Paths) (overlap : Rat) :
    p.getInfill k n outline holes overlap =
      (match k.execute2
          ((linear.getInfillClip k outline holes overlap).1 ++
            (linear.getInfillClip k outline holes overlap).2)
          (if n % 2 = 0 then p.paths else p.paths2) with
        | none => []
        | some tree => k.childContours tree) ∧
    p.infillSubject n = (if n % 2 = 0 then p.paths else p.paths2) ∧
    ((n % 2 = 0 ∧ p.infillSubject n = p.paths ∧ p.infillSubject (n + 1) = p.paths2) ∨
      (n % 2 = 1 ∧ p.infillSubject n = p.paths2 ∧ p.infillSubject (n + 1) = p.paths)) := by
  have hsub : p.infillSubject n = (if n % 2 = 0 then p.paths else p.paths2) := by
    rcases Int.emod_two_eq_zero_or_one n with h | h
    · rw [infillSubject_even p h, if_pos h]
    · rw [infillSubject_odd p h, if_neg (by omega)]
  refine ⟨?_, hsub, ?_⟩
  · unfold linear.getInfill
    simp only [hsub]
  · rcases Int.emod_two_eq_zero_or_one n with h | h
    · exact Or.inl ⟨h, infillSubject_even p h, infillSubject_odd p (by omega)⟩
    · exact Or.inr ⟨h, infillSubject_odd p h, infillSubject_even p (by omega)⟩

/-- C10: when the second clip fails, `Fill` returns no segments (and no region); when the
clip inside `getInfill` fails, `Fill` goes on with no subject path, and returns no segments
provided the kernel's intersection of an empty subject decomposes into no part. -/
theorem Fill_clip_failure {T : Type} (k : Kernel T)
    (sort : List LayerPart → Option (List LayerPart))
    (p : linear) (layerNr : Int) (paths : LayerPart) (outline : Option LayerPart)
    (lineWidth overlapPercentage additionalInternalOverlap : Int)
    (hfail :
      k.execute2
        ((linear.finalBoundary k paths outline lineWidth overlapPercentage).1 ::
          (linear.finalBoundary k paths outline lineWidth overlapPercentage).2)
        (p.infillPaths k layerNr paths lineWidth overlapPercentage additionalInternalOverlap)
          = none ∨
      (k.execute2
        ((linear.getInfillClip k (k.clipperPath paths.Outline) (k.clipperPaths paths.Holes)
            (linear.insideOverlap lineWidth overlapPercentage additionalInternalOverlap)).1 ++
          (linear.getInfillClip k (k.clipperPath paths.Outline) (k.clipperPaths paths.Holes)
            (linear.insideOverlap lineWidth overlapPercentage additionalInternalOverlap)).2)
        (p.infillSubject layerNr) = none ∧
       ∀ clip tree, k.execute2 clip [] = some tree → k.polyTreeToLayerParts tree = [])) :
    ∃ boundary,
      p.Fill k sort layerNr paths outline lineWidth overlapPercentage additionalInternalOverlap
        = some ([], boundary) := by
  rcases hfail with h2 | ⟨h1, hempty⟩
  · refine ⟨none, ?_⟩
    unfold linear.Fill
    simp only [h2]
  · have hinfill : p.infillPaths k layerNr paths lineWidth overlapPercentage
        additionalInternalOverlap = [] := by
      unfold linear.infillPaths linear.getInfill
      simp only [h1]
    unfold linear.Fill
    simp only [hinfill]
    cases h2 : k.execute2
        ((linear.finalBoundary k paths outline lineWidth overlapPercentage).1 ::
          (linear.finalBoundary k paths outline lineWidth overlapPercentage).2) [] with
    | none => exact ⟨none, rfl⟩
    | some res =>
      refine ⟨some (NewUnknownLayerPart
        (k.microPath (linear.finalBoundary k paths outline lineWidth overlapPercentage).1 false)
        (k.microPaths (linear.finalBoundary k paths outline lineWidth overlapPercentage).2 false)
        (-1)), ?_⟩
      simp only [hempty _ _ h2, linear.fillParts, List.length_nil, if_true]

/-- Witness of C10: with `failingKernel` the clip inside `getInfill` fails on the vertical
grid, and `Fill` returns no segments. -/
theorem Fill_clip_failure_witness :
    ∃ boundary,
      exampleGrid.Fill failingKernel insertionSort 0 squareWithHole none 1 0 0
        = some ([], boundary) :=
  Fill_clip_failure failingKernel insertionSort exampleGrid 0 squareWithHole none 1 0 0
    (Or.inr ⟨rfl, fun _ _ _ => rfl⟩)


/-! ### The perimeters step -/

theorem wallLoop_from_one (layerNr : Nat) (options : Options) (lenWall : Nat) :
    ∀ (l : List Paths) (s : Nat) (acc : Perimeters), 1 ≤ s → lenWall = s + l.length →
      wallLoop layerNr options lenWall s l acc =
        { innerPerimeters := acc.innerPerimeters ++ (l.drop (l.length - 1)).map
            (fun w => { paths := w, Speed := if layerNr > 0 then options.Print.LayerSpeed else 0 })
          outerPerimeters := acc.outerPerimeters
          middlePerimeters := acc.middlePerimeters ++ (l.take (l.length - 1)).map
            (fun w => { paths := w, Speed := if layerNr > 0 then options.Print.LayerSpeed else 0 }) } := by
  intro l
  induction l with
  | nil => intro s acc _ _; simp [wallLoop]
  | cons w rest ih =>
    intro s acc hs hlen
    have hs0 : s ≠ 0 := by omega
    unfold wallLoop
    rw [if_neg hs0]
    cases rest with
    | nil =>
      have hc : ¬ (s > 0 ∧ (s : Int) < (lenWall : Int) - 1) := by
        simp only [List.length_singleton] at hlen
        omega
      simp only [if_neg hc]
      simp [wallLoop]
    | cons r rs =>
      have hc : s > 0 ∧ (s : Int) < (lenWall : Int) - 1 := by
        simp only [List.length_cons] at hlen
        omega
      simp only [if_pos hc]
      rw [ih (s + 1) _ (by omega) (by simp only [List.length_cons] at hlen ⊢; omega)]
      simp

theorem wallLoop_wall (layerNr : Nat) (options : Options) (wall : List Paths)
    (acc : Perimeters) :
    wallLoop layerNr options wall.length 0 wall acc =
      { innerPerimeters := acc.innerPerimeters ++
          (if 2 ≤ wall.length then wall.drop (wall.length - 1) else []).map
            (fun w => { paths := w, Speed := if layerNr > 0 then options.Print.LayerSpeed else 0 })
        outerPerimeters := acc.outerPerimeters ++ (wall.take 1).map
            (fun w => { paths := w,
                        Speed := if layerNr > 0 then options.Print.OuterPerimeterSpeed else 0 })
        middlePerimeters := acc.middlePerimeters ++
          ((wall.drop 1).take (wall.length - 2)).map
            (fun w => { paths := w, Speed := if layerNr > 0 then options.Print.LayerSpeed else 0 }) } := by
  cases wall with
  | nil => simp [wallLoop]
  | cons w0 l =>
    unfold wallLoop
    simp only [if_true]
    rw [wallLoop_from_one layerNr options _ l 1 _ (le_refl 1) (by simp; omega)]
    cases l with
    | nil => simp
    | cons r rs => simp

theorem partLoop_closed (layerNr : Nat) (options : Options) :
    ∀ (part : List (List Paths)) (acc : Perimeters),
      partLoop layerNr options part acc =
        { innerPerimeters := acc.innerPerimeters ++
            (part.flatMap (fun wall =>
              if 2 ≤ wall.length then wall.drop (wall.length - 1) else [])).map
              (fun w => { paths := w, Speed := if layerNr > 0 then options.Print.LayerSpeed else 0 })
          outerPerimeters := acc.outerPerimeters ++
            (part.flatMap (fun wall => wall.take 1)).map
              (fun w => { paths := w,
                          Speed := if layerNr > 0 then options.Print.OuterPerimeterSpeed else 0 })
          middlePerimeters := acc.middlePerimeters ++
            (part.flatMap (fun wall => (wall.drop 1).take (wall.length - 2))).map
              (fun w => { paths := w, Speed := if layerNr > 0 then options.Print.LayerSpeed else 0 }) } := by
  intro part
  induction part with
  | nil => intro acc; simp [partLoop]
  | cons wall rest ih =>
    intro acc
    unfold partLoop
    rw [wallLoop_wall, ih]
    simp only [List.flatMap_cons, List.map_append, List.append_assoc]

theorem insetPartsLoop_closed (layerNr : Nat) (options : Options) :
    ∀ (insetParts : List (List (List Paths))) (acc : Perimeters),
      insetPartsLoop layerNr options insetParts acc =
        { innerPerimeters := acc.innerPerimeters ++
            (insetParts.flatten.flatMap (fun wall =>
              if 2 ≤ wall.length then wall.drop (wall.length - 1) else [])).map
              (fun w => { paths := w, Speed := if layerNr > 0 then options.Print.LayerSpeed else 0 })
          outerPerimeters := acc.outerPerimeters ++
            (insetParts.flatten.flatMap (fun wall => wall.take 1)).map
              (fun w => { paths := w,
                          Speed := if layerNr > 0 then options.Print.OuterPerimeterSpeed else 0 })
          middlePerimeters := acc.middlePerimeters ++
            (insetParts.flatten.flatMap (fun wall => (wall.drop 1).take (wall.length - 2))).map
              (fun w => { paths := w, Speed := if layerNr > 0 then options.Print.LayerSpeed else 0 }) } := by
  intro insetParts
  induction insetParts with
  | nil => intro acc; simp [insetPartsLoop]
  | cons part rest ih =>
    intro acc
    unfold insetPartsLoop
    rw [partLoop_closed, ih]
    simp only [List.flatten_cons, List.flatMap_append, List.map_append, List.append_assoc]

theorem perimetersStep_eq (c : Clip) (layerNr : Nat) (layers : List PartitionedLayer)
    (meta : List LayerMetadata) (options : Options) (layer : PartitionedLayer)
    (m : LayerMetadata) (hl : layers[layerNr]? = some layer) (hm : meta[layerNr]? = some m) :
    perimetersStep c layerNr layers meta options =
      some (m.set "perimeter" (Element.perimeter
        (((c.InsetLayer layer options.Printer.ExtrusionWidth
            options.Print.InsetCount).flatten.flatMap (fun wall => wall.take 1)).map
          (fun w => { paths := w,
                      Speed := if layerNr > 0 then options.Print.OuterPerimeterSpeed else 0 }))
        (((c.InsetLayer layer options.Printer.ExtrusionWidth
            options.Print.InsetCount).flatten.flatMap
              (fun wall => (wall.drop 1).take (wall.length - 2))).map
          (fun w => { paths := w, Speed := if layerNr > 0 then options.Print.LayerSpeed else 0 }))
        (((c.InsetLayer layer options.Printer.ExtrusionWidth
            options.Print.InsetCount).flatten.flatMap
              (fun wall => if 2 ≤ wall.length then wall.drop (wall.length - 1) else [])).map
          (fun w => { paths := w, Speed := if layerNr > 0 then options.Print.LayerSpeed else 0 })))) := by
  unfold perimetersStep
  simp only [hl, hm, insetPartsLoop_closed, List.nil_append]


theorem map_paths_tagged (speed : Rat) (l : List Paths) :
    (l.map (fun w => ({ paths := w, Speed := speed } : GCodePaths))).map (fun g => g.paths)
      = l := by
  induction l with
  | nil => rfl
  | cons w l ih =>
    rw [List.map_cons, List.map_cons, ih]

theorem wall_partition (wall : List Paths) :
    wall.take 1 ++ (wall.drop 1).take (wall.length - 2) ++
      (if 2 ≤ wall.length then wall.drop (wall.length - 1) else []) = wall := by
  cases wall with
  | nil => simp
  | cons w0 l =>
    cases l with
    | nil => simp
    | cons r rs =>
      have h : (r :: rs).take rs.length ++ (r :: rs).drop rs.length = r :: rs :=
        List.take_append_drop _ _
      simp

/-- C6: the perimeters step stores, under the tag "perimeter", the three lists in the order
outer, middle, inner, where over all wall-loop sets returned by the inset capability (in
order) the outer list holds loop 0 of each set, the middle list the loops 1..k−2 and the
inner list loop k−1 of each set of size k ≥ 2; the three pieces of a set are disjoint and
make up the set, so each loop is in exactly one list, and a set of one loop contributes to
the outer list only. -/
theorem perimetersStep_classification (c : Clip) (layerNr : Nat)
    (layers : List PartitionedLayer) (meta : List LayerMetadata) (options : Options)
    (layer : PartitionedLayer) (m : LayerMetadata)
    (hl : layers[layerNr]? = some layer) (hm : meta[layerNr]? = some m) :
    ∃ outer middle inner,
      perimetersStep c layerNr layers meta options =
        some (m.set "perimeter" (Element.perimeter outer middle inner)) ∧
      outer.map (fun g => g.paths) =
        (c.InsetLayer layer options.Printer.ExtrusionWidth options.Print.InsetCount).flatten.flatMap
          (fun wall => wall.take 1) ∧
      middle.map (fun g => g.paths) =
        (c.InsetLayer layer options.Printer.ExtrusionWidth options.Print.InsetCount).flatten.flatMap
          (fun wall => (wall.drop 1).take (wall.length - 2)) ∧
      inner.map (fun g => g.paths) =
        (c.InsetLayer layer options.Printer.ExtrusionWidth options.Print.InsetCount).flatten.flatMap
          (fun wall => if 2 ≤ wall.length then wall.drop (wall.length - 1) else []) ∧
      (∀ wall : List Paths,
        wall.take 1 ++ (wall.drop 1).take (wall.length - 2) ++
          (if 2 ≤ wall.length then wall.drop (wall.length - 1) else []) = wall) ∧
      (∀ wall : List Paths, wall.length = 1 →
        wall.take 1 = wall ∧ (wall.drop 1).take (wall.length - 2) = [] ∧
          (if 2 ≤ wall.length then wall.drop (wall.length - 1) else []) = []) := by
  refine ⟨_, _, _, perimetersStep_eq c layerNr layers meta options layer m hl hm, ?_, ?_, ?_,
    wall_partition, ?_⟩
  · exact map_paths_tagged _ _
  · exact map_paths_tagged _ _
  · exact map_paths_tagged _ _
  · intro wall hlen
    match wall, hlen with
    | [w], _ => simp

/-- Witness of C6: layer 0 of a one-layer input with `exampleClip`, whose inset result has
a wall of three loops and a wall of one loop. -/
theorem perimetersStep_classification_witness :
    ∃ outer middle inner,
      perimetersStep exampleClip 0 [[]] [emptyMetadata] exampleOptions =
        some (emptyMetadata.set "perimeter" (Element.perimeter outer middle inner)) ∧
      outer.map (fun g => g.paths) =
        [[[⟨0, 0⟩, ⟨9, 0⟩, ⟨9, 9⟩]], [[⟨20, 20⟩, ⟨29, 20⟩, ⟨29, 29⟩]]] ∧
      middle.map (fun g => g.paths) = [[[⟨1, 1⟩, ⟨8, 1⟩, ⟨8, 8⟩]]] ∧
      inner.map (fun g => g.paths) = [[[⟨2, 2⟩, ⟨7, 2⟩, ⟨7, 7⟩]]] := by
  obtain ⟨outer, middle, inner, h, ho, hmid, hin, _, _⟩ :=
    perimetersStep_classification exampleClip 0 [[]] [emptyMetadata] exampleOptions [] emptyMetadata
      rfl rfl
  exact ⟨outer, middle, inner, h, by rw [ho]; rfl, by rw [hmid]; rfl, by rw [hin]; rfl⟩

/-- C7: the perimeters step stores every loop returned by the inset capability together
with its feed. Over all wall-loop sets in order, loop 0 of each set is stored in the outer
list with the zero feed on layer 0 and `OuterPerimeterSpeed` on a layer above 0; the loops
1..k−2 are stored in the middle list and loop k−1 (k ≥ 2) in the inner list, each with the
zero feed on layer 0 and `LayerSpeed` on a layer above 0. -/
theorem perimetersStep_feed (c : Clip) (layerNr : Nat)
    (layers : List PartitionedLayer) (meta : List LayerMetadata) (options : Options)
    (layer : PartitionedLayer) (m : LayerMetadata)
    (hl : layers[layerNr]? = some layer) (hm : meta[layerNr]? = some m) :
    perimetersStep c layerNr layers meta options =
      some (m.set "perimeter" (Element.perimeter
        (((c.InsetLayer layer options.Printer.ExtrusionWidth
            options.Print.InsetCount).flatten.flatMap (fun wall => wall.take 1)).map
          (fun loop => { paths := loop,
                         Speed := if layerNr = 0 then 0 else options.Print.OuterPerimeterSpeed }))
        (((c.InsetLayer layer options.Printer.ExtrusionWidth
            options.Print.InsetCount).flatten.flatMap
              (fun wall => (wall.drop 1).take (wall.length - 2))).map
          (fun loop => { paths := loop,
                         Speed := if layerNr = 0 then 0 else options.Print.LayerSpeed }))
        (((c.InsetLayer layer options.Printer.ExtrusionWidth
            options.Print.InsetCount).flatten.flatMap
              (fun wall => if 2 ≤ wall.length then wall.drop (wall.length - 1) else [])).map
          (fun loop => { paths := loop,
                         Speed := if layerNr = 0 then 0 else options.Print.LayerSpeed })))) := by
  have hfeed : ∀ x : Rat, (if layerNr > 0 then x else 0) = (if layerNr = 0 then 0 else x) := by
    intro x
    by_cases h0 : layerNr = 0
    · simp [h0]
    · have hpos : layerNr > 0 := Nat.pos_of_ne_zero h0
      simp [h0, hpos]
  rw [perimetersStep_eq c layerNr layers meta options layer m hl hm]
  simp only [hfeed]

/-- Witness of C7: with `exampleClip` (a wall of three loops and a wall of one loop), on
layer 0 every loop is stored with the zero feed, and on layer 1 the two outer loops are
stored with the outer-perimeter feed 40, the middle and the inner loop with the layer
feed 60. -/
theorem perimetersStep_feed_witness :
    perimetersStep exampleClip 0 [[], []] [emptyMetadata, emptyMetadata] exampleOptions =
      some (emptyMetadata.set "perimeter" (Element.perimeter
        [{ paths := [[⟨0, 0⟩, ⟨9, 0⟩, ⟨9, 9⟩]], Speed := 0 },
         { paths := [[⟨20, 20⟩, ⟨29, 20⟩, ⟨29, 29⟩]], Speed := 0 }]
        [{ paths := [[⟨1, 1⟩, ⟨8, 1⟩, ⟨8, 8⟩]], Speed := 0 }]
        [{ paths := [[⟨2, 2⟩, ⟨7, 2⟩, ⟨7, 7⟩]], Speed := 0 }])) ∧
    perimetersStep exampleClip 1 [[], []] [emptyMetadata, emptyMetadata] exampleOptions =
      some (emptyMetadata.set "perimeter" (Element.perimeter
        [{ paths := [[⟨0, 0⟩, ⟨9, 0⟩, ⟨9, 9⟩]], Speed := 40 },
         { paths := [[⟨20, 20⟩, ⟨29, 20⟩, ⟨29, 29⟩]], Speed := 40 }]
        [{ paths := [[⟨1, 1⟩, ⟨8, 1⟩, ⟨8, 8⟩]], Speed := 60 }]
        [{ paths := [[⟨2, 2⟩, ⟨7, 2⟩, ⟨7, 7⟩]], Speed := 60 }])) := by
  constructor
  · rw [perimetersStep_feed exampleClip 0 [[], []] [emptyMetadata, emptyMetadata]
      exampleOptions [] emptyMetadata rfl rfl]
    rfl
  · rw [perimetersStep_feed exampleClip 1 [[], []] [emptyMetadata, emptyMetadata]
      exampleOptions [] emptyMetadata rfl rfl]
    rfl

/-! ### The bottom layers step -/

theorem bottomLayerLoop_eq (c : Clip) (options : Options) :
    ∀ (l : List GCodePaths) (acc : List Paths),
      bottomLayerLoop c options l acc =
        acc ++ l.filterMap (fun g =>
          c.Fill g.paths options.Printer.ExtrusionWidth options.Print.InfillOverlapPercent) := by
  intro l
  induction l with
  | nil => intro acc; simp [bottomLayerLoop]
  | cons g l ih =>
    intro acc
    unfold bottomLayerLoop
    cases hf : c.Fill g.paths options.Printer.ExtrusionWidth options.Print.InfillOverlapPercent with
    | none => simp [ih, List.filterMap_cons, hf]
    | some infill => simp [ih, List.filterMap_cons, hf]

theorem bottomLayerSource_eq (p0 p1 p2 : List GCodePaths) :
    bottomLayerSource p0 p1 p2 = (if p2 ≠ [] then p2 else if p1 ≠ [] then p1 else p0) := by
  unfold bottomLayerSource
  cases p2 with
  | cons a l => simp
  | nil =>
    cases p1 with
    | cons a l => simp
    | nil => simp

/-- C8: on layer 0, with the artifact `[outer, middle, inner]` under the tag "perimeter",
the bottom layers step hands to the fill capability, in order, the paths of the inner list
if it is not empty, else of the middle list if it is not empty, else of the outer list, and
stores the non-nil results under "bottomLayer"; with empty inner and middle lists the outer
list is the source. -/
theorem bottomLayersStep_source (c : Clip) (layers : List PartitionedLayer)
    (meta : List LayerMetadata) (options : Options) (m : LayerMetadata)
    (outer middle inner : List GCodePaths)
    (hm : meta[0]? = some m)
    (hp : m.Elements "perimeter" = some (Element.perimeter outer middle inner)) :
    bottomLayersStep c 0 layers meta options =
      some (m.set "bottomLayer" (Element.pathsList
        ((if inner ≠ [] then inner else if middle ≠ [] then middle else outer).filterMap
          (fun g => c.Fill g.paths options.Printer.ExtrusionWidth
            options.Print.InfillOverlapPercent)))) ∧
    bottomLayerSource outer middle inner =
      (if inner ≠ [] then inner else if middle ≠ [] then middle else outer) ∧
    (inner = [] → middle = [] → bottomLayerSource outer middle inner = outer) := by
  have hsrc := bottomLayerSource_eq outer middle inner
  refine ⟨?_, hsrc, ?_⟩
  · unfold bottomLayersStep
    simp only [hm, hp, if_true, bottomLayerLoop_eq, List.nil_append, hsrc]
  · intro hi hmid
    rw [hsrc, hi, hmid]
    simp

/-- Witness of C8: empty inner and middle lists and one outer loop; the fill capability of
`exampleClip` receives the outer loop. -/
theorem bottomLayersStep_source_witness :
    bottomLayersStep exampleClip 0 [[]]
        [emptyMetadata.set "perimeter"
          (Element.perimeter [{ paths := [[⟨0, 0⟩, ⟨9, 0⟩, ⟨9, 9⟩]], Speed := 0 }] [] [])]
        exampleOptions =
      some ((emptyMetadata.set "perimeter"
          (Element.perimeter [{ paths := [[⟨0, 0⟩, ⟨9, 0⟩, ⟨9, 9⟩]], Speed := 0 }] [] [])).set
        "bottomLayer" (Element.pathsList [[[⟨0, 0⟩, ⟨9, 0⟩, ⟨9, 9⟩]]])) :=
  (bottomLayersStep_source exampleClip [[]]
    [emptyMetadata.set "perimeter"
      (Element.perimeter [{ paths := [[⟨0, 0⟩, ⟨9, 0⟩, ⟨9, 9⟩]], Speed := 0 }] [] [])]
    exampleOptions
    (emptyMetadata.set "perimeter"
      (Element.perimeter [{ paths := [[⟨0, 0⟩, ⟨9, 0⟩, ⟨9, 9⟩]], Speed := 0 }] [] []))
    [{ paths := [[⟨0, 0⟩, ⟨9, 0⟩, ⟨9, 9⟩]], Speed := 0 }] [] [] rfl rfl).1

/-! ### `Generate` -/

theorem renderLayer_eq (g : generator) (meta : List LayerMetadata) (layerNr : Nat) :
    ∀ (renderers : List RenderStep) (builder : gcodeBuilder),
      g.renderLayer meta layerNr renderers builder =
        renderers.foldlM (fun b renderer =>
          renderer b layerNr meta
            (g.options.Print.InitialLayerThickness +
              (layerNr : Int) * g.options.Print.LayerThickness) g.options) builder := by
  intro renderers
  induction renderers with
  | nil => intro builder; rfl
  | cons r rest ih =>
    intro builder
    unfold generator.renderLayer
    rw [List.foldlM_cons]
    cases hr : r builder layerNr meta
        (g.options.Print.InitialLayerThickness +
          (layerNr : Int) * g.options.Print.LayerThickness) g.options with
    | none => simp [hr]
    | some b => simp [hr, ih]

theorem renderLayers_eq (g : generator) (meta : List LayerMetadata) :
    ∀ (layerNrs : List Nat) (builder : gcodeBuilder),
      g.renderLayers meta layerNrs builder =
        layerNrs.foldlM (fun b layerNr =>
          g.renderers.foldlM (fun b renderer =>
            renderer b layerNr meta
              (g.options.Print.InitialLayerThickness +
                (layerNr : Int) * g.options.Print.LayerThickness) g.options) b) builder := by
  intro layerNrs
  induction layerNrs with
  | nil => intro builder; rfl
  | cons n rest ih =>
    intro builder
    unfold generator.renderLayers
    rw [List.foldlM_cons, renderLayer_eq]
    cases hr : g.renderers.foldlM (fun b renderer =>
        renderer b n meta
          (g.options.Print.InitialLayerThickness +
            (n : Int) * g.options.Print.LayerThickness) g.options) builder with
    | none => simp [hr]
    | some b => simp [hr, ih]

/-- C9: `Generate` runs its renderers layer by layer, and every renderer called for layer
`n` receives the height `InitialLayerThickness + n × LayerThickness`; with an initial
thickness of 300 and a layer thickness of 200 a renderer that records its height sees 300,
500 and 700 on the layers 0, 1 and 2. -/
theorem Generate_target_height (g : generator) (layers : List PartitionedLayer) :
    g.Generate layers =
      (match g.runSteps layers g.steps [] with
        | none => none
        | some meta =>
          ((List.range layers.length).foldlM (fun (b : gcodeBuilder) (layerNr : Nat) =>
            g.renderers.foldlM (fun (b : gcodeBuilder) (renderer : RenderStep) =>
              renderer b layerNr meta
                (g.options.Print.InitialLayerThickness +
                  (layerNr : Int) * g.options.Print.LayerThickness) g.options) b)
            g.init).map g.finish) ∧
    (({ options := exampleOptions, steps := [], renderers := [heightProbe] } :
        generator).Generate [[], [], []]).map traversalHeights = some [300, 500, 700] := by
  refine ⟨?_, by rfl⟩
  unfold generator.Generate
  cases hs : g.runSteps layers g.steps [] with
  | none => rfl
  | some meta =>
    simp only [renderLayers_eq]
    cases (List.range layers.length).foldlM (fun (b : gcodeBuilder) (layerNr : Nat) =>
        g.renderers.foldlM (fun (b : gcodeBuilder) (renderer : RenderStep) =>
          renderer b layerNr meta
            (g.options.Print.InitialLayerThickness +
              (layerNr : Int) * g.options.Print.LayerThickness) g.options) b) g.init <;> rfl


/-! ### `Fill`: the region returned with the segments -/

theorem fillParts_region {sort : List LayerPart → Option (List LayerPart)}
    {parts : List LayerPart} {boundary : LayerPart} {segs : Paths} {b : Option LayerPart}
    (h : linear.fillParts sort parts boundary = some (segs, b)) : b = some boundary := by
  unfold linear.fillParts at h
  by_cases hlen : parts.length = 0
  · rw [if_pos hlen] at h
    simp only [Option.some.injEq, Prod.mk.injEq] at h
    exact h.2.symm
  · rw [if_neg hlen] at h
    cases hs : sort parts with
    | none => simp [hs] at h
    | some sorted =>
      cases hc : linear.collectOutlines sorted [] with
      | none => simp [hs, hc] at h
      | some r =>
        simp only [hs, hc, Option.some.injEq, Prod.mk.injEq] at h
        exact h.2.symm

/-- C11: when the second clip succeeds and its result decomposes into no part, `Fill`
returns no segment together with the region built by `NewUnknownLayerPart` from the
adjusted boundary: its outline and holes are the converted `finalOutline` and `finalHoles`,
its classification is "unknown" and its index is −1; and whenever `Fill` returns a
non-empty list of segments, it returns that same region with it. -/
theorem Fill_boundary_region {T : Type} (k : Kernel T)
    (sort : List LayerPart → Option (List LayerPart))
    (p : linear) (layerNr : Int) (paths : LayerPart) (outline : Option LayerPart)
    (lineWidth overlapPercentage additionalInternalOverlap : Int) :
    (∀ res : T,
      k.execute2
        ((linear.finalBoundary k paths outline lineWidth overlapPercentage).1 ::
          (linear.finalBoundary k paths outline lineWidth overlapPercentage).2)
        (p.infillPaths k layerNr paths lineWidth overlapPercentage additionalInternalOverlap)
          = some res →
      k.polyTreeToLayerParts res = [] →
      ∃ region : LayerPart,
        p.Fill k sort layerNr paths outline lineWidth overlapPercentage
          additionalInternalOverlap = some ([], some region) ∧
        region.Outline =
          k.microPath (linear.finalBoundary k paths outline lineWidth overlapPercentage).1 false ∧
        region.Holes =
          k.microPaths (linear.finalBoundary k paths outline lineWidth overlapPercentage).2 false ∧
        region.Classification = "unknown" ∧ region.Index = -1) ∧
    (∀ (segs : Paths) (b : Option LayerPart),
      p.Fill k sort layerNr paths outline lineWidth overlapPercentage
        additionalInternalOverlap = some (segs, b) →
      segs ≠ [] →
      b = some (NewUnknownLayerPart
        (k.microPath (linear.finalBoundary k paths outline lineWidth overlapPercentage).1 false)
        (k.microPaths (linear.finalBoundary k paths outline lineWidth overlapPercentage).2 false)
        (-1))) := by
  constructor
  · intro res hclip hparts
    refine ⟨NewUnknownLayerPart
      (k.microPath (linear.finalBoundary k paths outline lineWidth overlapPercentage).1 false)
      (k.microPaths (linear.finalBoundary k paths outline lineWidth overlapPercentage).2 false)
      (-1), ?_, rfl, rfl, rfl, rfl⟩
    rw [Fill_of_clip k sort p layerNr paths outline lineWidth overlapPercentage
      additionalInternalOverlap res hclip, hparts]
    simp [linear.fillParts]
  · intro segs b hfill hne
    cases hclip : k.execute2
        ((linear.finalBoundary k paths outline lineWidth overlapPercentage).1 ::
          (linear.finalBoundary k paths outline lineWidth overlapPercentage).2)
        (p.infillPaths k layerNr paths lineWidth overlapPercentage
          additionalInternalOverlap) with
    | none =>
      unfold linear.Fill at hfill
      simp only [hclip, Option.some.injEq, Prod.mk.injEq] at hfill
      exact absurd hfill.1.symm hne
    | some res =>
      rw [Fill_of_clip k sort p layerNr paths outline lineWidth overlapPercentage
        additionalInternalOverlap res hclip] at hfill
      exact fillParts_region hfill

/-- Witness of C11: a kernel whose clip result decomposes into no part, and one whose
result is a single piece of a grid line. -/
theorem Fill_boundary_region_witness :
    (∃ region : LayerPart,
      exampleGrid.Fill (listingKernel []) insertionSort 0 squareWithHole none 1 100 0
        = some ([], some region) ∧
      region.Outline = squareWithHole.Outline ∧ region.Holes = squareWithHole.Holes ∧
      region.Classification = "unknown" ∧ region.Index = -1) ∧
    (exampleGrid.Fill (listingKernel [lowerSegment]) insertionSort 0 squareWithHole none 1 100 0
        = some ([[⟨5, 0⟩, ⟨5, 4⟩]],
            some (NewUnknownLayerPart squareWithHole.Outline squareWithHole.Holes (-1)))) := by
  have hzero : linear.perimeterOverlap 1 100 = 0 := by
    unfold linear.perimeterOverlap
    norm_num
  have hb1 : linear.finalBoundary (listingKernel []) squareWithHole none 1 100
      = (squareWithHole.Outline, squareWithHole.Holes) := by
    unfold linear.finalBoundary
    simp [hzero, listingKernel]
  have hb2 : linear.finalBoundary (listingKernel [lowerSegment]) squareWithHole none 1 100
      = (squareWithHole.Outline, squareWithHole.Holes) := by
    unfold linear.finalBoundary
    simp [hzero, listingKernel]
  constructor
  · have h := (Fill_boundary_region (listingKernel []) insertionSort exampleGrid 0
      squareWithHole none 1 100 0).1 () rfl rfl
    rw [hb1] at h
    exact h
  · have hseg : (exampleGrid.Fill (listingKernel [lowerSegment]) insertionSort 0
        squareWithHole none 1 100 0).map Prod.fst = some [[⟨5, 0⟩, ⟨5, 4⟩]] := by
      rw [Fill_of_clip (listingKernel [lowerSegment]) insertionSort exampleGrid 0
        squareWithHole none 1 100 0 () rfl]
      rfl
    cases hF : exampleGrid.Fill (listingKernel [lowerSegment]) insertionSort 0
        squareWithHole none 1 100 0 with
    | none => simp [hF] at hseg
    | some r =>
      obtain ⟨segs, b⟩ := r
      simp only [hF, Option.map_some', Option.some.injEq] at hseg
      subst hseg
      have h := (Fill_boundary_region (listingKernel [lowerSegment]) insertionSort exampleGrid 0
        squareWithHole none 1 100 0).2 _ b hF (by simp)
      rw [h, hb2]
      rfl

/-- C12: `Fill` called without a boundary region returns what it returns when the source
region itself is passed as the boundary region. -/
theorem Fill_nil_boundary {T : Type} (k : Kernel T)
    (sort : List LayerPart → Option (List LayerPart))
    (p : linear) (layerNr : Int) (R : LayerPart)
    (lineWidth overlapPercentage additionalInternalOverlap : Int) :
    p.Fill k sort layerNr R none lineWidth overlapPercentage additionalInternalOverlap =
      p.Fill k sort layerNr R (some R) lineWidth overlapPercentage
        additionalInternalOverlap := by
  have hb : linear.finalBoundary k R none lineWidth overlapPercentage =
      linear.finalBoundary k R (some R) lineWidth overlapPercentage := by
    unfold linear.finalBoundary
    rfl
  unfold linear.Fill
  rw [hb]


/-! ### Termination of the grid loops -/

theorem scanLoop_diverges {body : Int → Nat → Path} {limit w : Int} (hw : w ≤ 0) :
    ∀ (fuel : Nat) (c : Int) (n : Nat) (lines : Paths), c ≤ limit →
      scanLoop body limit w fuel c n lines = none := by
  intro fuel
  induction fuel with
  | zero => intro c n lines _; rfl
  | succ fuel ih =>
    intro c n lines hc
    unfold scanLoop
    rw [if_pos hc]
    exact ih _ _ _ (by omega)

/-- C19: for a positive spacing both loops of `NewLinearPattern` terminate, and each grid
has `⌊(max − min)/spacing⌋ + 1` lines along its scan axis when `min ≤ max` there and no line
when `max < min`; for a spacing `≤ 0` a loop whose axis has `min ≤ max` never leaves its
condition, whatever the fuel, so `NewLinearPattern` does not return. -/
theorem NewLinearPattern_termination (min max : IntPoint) (w : Int) :
    (0 < w →
      (∃ fuel v h,
        scanLoop (verticalLine min max) max.X w fuel min.X 0 [] = some v ∧
        scanLoop (horizontalLine min max) max.Y w fuel min.Y 0 [] = some h ∧
        NewLinearPattern fuel min max w = some { paths := v, paths2 := h }) ∧
      (∀ fuel p, NewLinearPattern fuel min max w = some p →
        (p.paths.length : Int) =
          (if min.X ≤ max.X then ⌊((max.X - min.X : Int) : ℚ) / (w : ℚ)⌋ + 1 else 0) ∧
        (p.paths2.length : Int) =
          (if min.Y ≤ max.Y then ⌊((max.Y - min.Y : Int) : ℚ) / (w : ℚ)⌋ + 1 else 0))) ∧
    (w ≤ 0 →
      (min.X ≤ max.X → ∀ fuel n lines,
        scanLoop (verticalLine min max) max.X w fuel min.X n lines = none) ∧
      (min.Y ≤ max.Y → ∀ fuel n lines,
        scanLoop (horizontalLine min max) max.Y w fuel min.Y n lines = none) ∧
      (min.X ≤ max.X ∨ min.Y ≤ max.Y → ∀ fuel, NewLinearPattern fuel min max w = none)) := by
  constructor
  · intro hw
    constructor
    · obtain ⟨v, hv⟩ := @scanLoop_terminates (verticalLine min max) max.X w hw
        (scanCount max.X w min.X + scanCount max.Y w min.Y + 1) min.X 0 [] (by omega)
      obtain ⟨h, hh⟩ := @scanLoop_terminates (horizontalLine min max) max.Y w hw
        (scanCount max.X w min.X + scanCount max.Y w min.Y + 1) min.Y 0 [] (by omega)
      exact ⟨_, v, h, hv, hh, by simp [NewLinearPattern, hv, hh]⟩
    · intro fuel p hp
      obtain ⟨hv, hh⟩ := NewLinearPattern_grids hw hp
      rw [floor_div_eq _ _ hw, floor_div_eq _ _ hw, hv, hh]
      simp only [List.length_map, List.length_range]
      constructor
      · by_cases hx : min.X ≤ max.X
        · rw [if_pos hx]; exact scanCount_cast_of_le hw hx
        · rw [if_neg hx, scanCount_of_gt hw (by omega)]; rfl
      · by_cases hy : min.Y ≤ max.Y
        · rw [if_pos hy]; exact scanCount_cast_of_le hw hy
        · rw [if_neg hy, scanCount_of_gt hw (by omega)]; rfl
  · intro hw
    refine ⟨fun hx fuel n lines => scanLoop_diverges hw fuel _ n lines hx,
      fun hy fuel n lines => scanLoop_diverges hw fuel _ n lines hy, ?_⟩
    intro hxy fuel
    unfold NewLinearPattern
    cases hv : scanLoop (verticalLine min max) max.X w fuel min.X 0 [] with
    | none => rfl
    | some v =>
      rcases hxy with hx | hy
      · rw [scanLoop_diverges hw fuel _ 0 [] hx] at hv
        exact absurd hv (by simp)
      · simp only [scanLoop_diverges hw fuel _ 0 [] hy]

/-- Witness of C19: the box (0,0)-(5,5), with spacing 2 (three lines per grid) and with
spacing 0 (no result for any fuel). -/
theorem NewLinearPattern_termination_witness :
    ((∃ fuel v h,
        scanLoop (verticalLine ⟨0, 0⟩ ⟨5, 5⟩) 5 2 fuel 0 0 [] = some v ∧
        scanLoop (horizontalLine ⟨0, 0⟩ ⟨5, 5⟩) 5 2 fuel 0 0 [] = some h ∧
        NewLinearPattern fuel ⟨0, 0⟩ ⟨5, 5⟩ 2 = some { paths := v, paths2 := h }) ∧
      (NewLinearPattern 10 ⟨0, 0⟩ ⟨5, 5⟩ 2).map (fun p => (p.paths.length, p.paths2.length))
        = some (3, 3)) ∧
    (∀ fuel, NewLinearPattern fuel ⟨0, 0⟩ ⟨5, 5⟩ 0 = none) :=
  ⟨⟨((NewLinearPattern_termination ⟨0, 0⟩ ⟨5, 5⟩ 2).1 (by decide)).1, by decide⟩,
    ((NewLinearPattern_termination ⟨0, 0⟩ ⟨5, 5⟩ 0).2 (by decide)).2.2 (Or.inl (by decide))⟩


/-! ### The step pipeline of `NewGenerator` -/

theorem perimetersStep_some (c : Clip) (layerNr : Nat) (layers : List PartitionedLayer)
    (meta : List LayerMetadata) (options : Options) (m : LayerMetadata)
    (hl : layerNr < layers.length) (hm : meta[layerNr]? = some m) :
    ∃ p0 p1 p2, perimetersStep c layerNr layers meta options =
      some (m.set "perimeter" (Element.perimeter p0 p1 p2)) :=
  ⟨_, _, _, perimetersStep_eq c layerNr layers meta options layers[layerNr] m
    (List.getElem?_eq_getElem hl) hm⟩

theorem bottomLayersStep_some (c : Clip) (layerNr : Nat) (layers : List PartitionedLayer)
    (meta : List LayerMetadata) (options : Options) (m : LayerMetadata)
    (p0 p1 p2 : List GCodePaths) (hm : meta[layerNr]? = some m)
    (hp : m.Elements "perimeter" = some (Element.perimeter p0 p1 p2)) :
    ∃ l, bottomLayersStep c layerNr layers meta options =
        some (m.set "bottomLayer" (Element.pathsList l)) ∧
      (0 < layerNr → l = []) := by
  unfold bottomLayersStep
  by_cases h0 : layerNr = 0
  · subst h0
    exact ⟨bottomLayerLoop c options (bottomLayerSource p0 p1 p2) [],
      by simp only [hm, hp, if_true], fun h => absurd h (by omega)⟩
  · exact ⟨[], by simp only [hm, if_neg h0], fun _ => rfl⟩

theorem stepLayers_spec (g : generator) (step : GeneratorStep) (layers : List PartitionedLayer)
    (Inv Good : Nat → LayerMetadata → Prop) (N : Nat)
    (hstep : ∀ i meta m, i < N → meta[i]? = some m → Inv i m →
      ∃ m', step i layers meta g.options = some m' ∧ Good i m') :
    ∀ (k j : Nat) (meta : List LayerMetadata), j + k = N → j ≤ meta.length → meta.length ≤ N →
      (meta.length = N ∨ ∀ i, Inv i { Elements := fun _ => none }) →
      (∀ i m, i < j → meta[i]? = some m → Good i m) →
      (∀ i m, j ≤ i → meta[i]? = some m → Inv i m) →
      ∃ meta', g.stepLayers step layers (List.range' j k) meta = some meta' ∧
        meta'.length = N ∧ ∀ i m, meta'[i]? = some m → Good i m := by
  intro k
  induction k with
  | zero =>
    intro j meta hjk hj hN _ hgood _
    refine ⟨meta, rfl, by omega, ?_⟩
    intro i m him
    have hi : i < meta.length := (List.getElem?_eq_some.1 him).1
    exact hgood i m (by omega) him
  | succ k ih =>
    intro j meta hjk hj hN hE hgood hinv
    rw [List.range'_succ]
    unfold generator.stepLayers
    by_cases hlen : meta.length ≤ j
    · -- a fresh entry is appended for layer `j`
      have hlenj : meta.length = j := by omega
      have hempty : ∀ i, Inv i { Elements := fun _ => none } := by
        rcases hE with h | h
        · omega
        · exact h
      simp only [if_pos hlen]
      have hget : (meta ++ [({ Elements := fun _ => none } : LayerMetadata)])[j]?
          = some { Elements := fun _ => none } := by
        rw [← hlenj]
        exact List.getElem?_concat_length _ _
      obtain ⟨m', hm', hg'⟩ := hstep j _ _ (by omega) hget (hempty j)
      have hlt : j < (meta ++ [({ Elements := fun _ => none } : LayerMetadata)]).length := by
        simp; omega
      simp only [hm', if_pos hlt]
      apply ih (j + 1) _ (by omega)
      · simp; omega
      · simp; omega
      · exact Or.inr hempty
      · intro i m hi him
        rw [List.getElem?_set] at him
        by_cases hij : j = i
        · subst hij
          simp only [if_true, if_pos hlt, Option.some.injEq] at him
          subst him
          exact hg'
        · simp only [if_neg hij] at him
          rw [List.getElem?_append_left (by omega)] at him
          exact hgood i m (by omega) him
      · intro i m hi him
        rw [List.getElem?_set_ne (by omega)] at him
        have : i < (meta ++ [({ Elements := fun _ => none } : LayerMetadata)]).length :=
          (List.getElem?_eq_some.1 him).1
        simp at this
        omega
    · -- the entry of layer `j` exists already
      simp only [if_neg hlen]
      have hlt : j < meta.length := by omega
      have hget : meta[j]? = some meta[j] := List.getElem?_eq_getElem hlt
      obtain ⟨m', hm', hg'⟩ := hstep j _ _ (by omega) hget (hinv j _ (le_refl j) hget)
      simp only [hm', if_pos hlt]
      apply ih (j + 1) _ (by omega)
      · simp; omega
      · simp; omega
      · rcases hE with h | h
        · exact Or.inl (by simp [h])
        · exact Or.inr h
      · intro i m hi him
        rw [List.getElem?_set] at him
        by_cases hij : j = i
        · subst hij
          simp only [if_true, if_pos hlt, Option.some.injEq] at him
          subst him
          exact hg'
        · simp only [if_neg hij] at him
          exact hgood i m (by omega) him
      · intro i m hi him
        rw [List.getElem?_set_ne (by omega)] at him
        exact hinv i m (by omega) him

theorem pipeline_NewGenerator (c : Clip) (options : Options) (layers : List PartitionedLayer) :
    ∃ meta₁ meta₂,
      (NewGenerator c options).stepLayers (perimetersStep c) layers
        (List.range layers.length) [] = some meta₁ ∧
      meta₁.length = layers.length ∧
      (∀ (i : Nat) (m : LayerMetadata), meta₁[i]? = some m →
        (∃ p0 p1 p2, m.Elements "perimeter" = some (Element.perimeter p0 p1 p2)) ∧
        ∀ t, t ≠ "perimeter" → m.Elements t = none) ∧
      (NewGenerator c options).stepLayers (bottomLayersStep c) layers
        (List.range layers.length) meta₁ = some meta₂ ∧
      meta₂.length = layers.length ∧
      (∀ (i : Nat) (m : LayerMetadata), meta₂[i]? = some m →
        (∃ p0 p1 p2, m.Elements "perimeter" = some (Element.perimeter p0 p1 p2)) ∧
        (∃ l, m.Elements "bottomLayer" = some (Element.pathsList l) ∧ (0 < i → l = [])) ∧
        ∀ t, t ≠ "perimeter" → t ≠ "bottomLayer" → m.Elements t = none) ∧
      (NewGenerator c options).runSteps layers (NewGenerator c options).steps [] = some meta₂ := by
  obtain ⟨meta₁, h₁, hlen₁, hgood₁⟩ :=
    stepLayers_spec (NewGenerator c options) (perimetersStep c) layers
      (fun _ m => ∀ t, m.Elements t = none)
      (fun _ m => (∃ p0 p1 p2, m.Elements "perimeter" = some (Element.perimeter p0 p1 p2)) ∧
        ∀ t, t ≠ "perimeter" → m.Elements t = none)
      layers.length
      (by
        intro i meta m hi hm hinv
        obtain ⟨p0, p1, p2, hstep⟩ := perimetersStep_some c i layers meta options m hi hm
        refine ⟨_, hstep, ⟨p0, p1, p2, by simp [LayerMetadata.set]⟩, ?_⟩
        intro t ht
        simp [LayerMetadata.set, ht, hinv t])
      layers.length 0 [] (by omega) (by simp) (by simp) (Or.inr (fun _ _ => rfl))
      (by intro i m hi; omega) (by intro i m _ him; simp at him)
  obtain ⟨meta₂, h₂, hlen₂, hgood₂⟩ :=
    stepLayers_spec (NewGenerator c options) (bottomLayersStep c) layers
      (fun _ m => (∃ p0 p1 p2, m.Elements "perimeter" = some (Element.perimeter p0 p1 p2)) ∧
        ∀ t, t ≠ "perimeter" → m.Elements t = none)
      (fun i m => (∃ p0 p1 p2, m.Elements "perimeter" = some (Element.perimeter p0 p1 p2)) ∧
        (∃ l, m.Elements "bottomLayer" = some (Element.pathsList l) ∧ (0 < i → l = [])) ∧
        ∀ t, t ≠ "perimeter" → t ≠ "bottomLayer" → m.Elements t = none)
      layers.length
      (by
        intro i meta m hi hm hinv
        obtain ⟨⟨p0, p1, p2, hp⟩, hother⟩ := hinv
        obtain ⟨l, hstep, hl⟩ := bottomLayersStep_some c i layers meta options m p0 p1 p2 hm hp
        refine ⟨_, hstep, ⟨p0, p1, p2, ?_⟩, ⟨l, by simp [LayerMetadata.set], hl⟩, ?_⟩
        · simp [LayerMetadata.set, hp]
        · intro t ht hb
          simp [LayerMetadata.set, hb, hother t ht])
      layers.length 0 meta₁ (by omega) (by omega) (by omega) (Or.inl hlen₁)
      (by intro i m hi; omega) (by intro i m _ him; exact hgood₁ i m him)
  rw [← List.range_eq_range'] at h₁ h₂
  refine ⟨meta₁, meta₂, h₁, hlen₁, hgood₁, h₂, hlen₂, hgood₂, ?_⟩
  simp only [NewGenerator, generator.runSteps] at h₁ h₂ ⊢
  simp only [h₁, h₂]


/-- C13: for the generator built by `NewGenerator` and an input of `N` layers, the step
pipeline of `Generate` returns a metadata store with exactly `N` entries, one for every
layer index below `N`; each entry is the initialised (empty) map with nothing but the tags
the two steps write; and the renderers of `Generate` run on that store. -/
theorem Generate_metadata_dense (c : Clip) (options : Options)
    (layers : List PartitionedLayer) :
    ∃ meta : List LayerMetadata,
      (NewGenerator c options).runSteps layers (NewGenerator c options).steps [] = some meta ∧
      meta.length = layers.length ∧
      (∀ i : Nat, i < layers.length → ∃ m : LayerMetadata, meta[i]? = some m ∧
        ∀ t, t ≠ "perimeter" → t ≠ "bottomLayer" → m.Elements t = none) ∧
      (NewGenerator c options).Generate layers =
        ((NewGenerator c options).renderLayers meta (List.range layers.length)
          (NewGenerator c options).init).map (NewGenerator c options).finish := by
  obtain ⟨_, meta, _, _, _, _, hlen, hgood, hrun⟩ := pipeline_NewGenerator c options layers
  refine ⟨meta, hrun, hlen, ?_, ?_⟩
  · intro i hi
    have hget : meta[i]? = some meta[i] := List.getElem?_eq_getElem (by omega)
    exact ⟨_, hget, (hgood i _ hget).2.2⟩
  · unfold generator.Generate
    simp only [hrun]
    cases (NewGenerator c options).renderLayers meta (List.range layers.length)
      (NewGenerator c options).init <;> rfl

/-- C20: in a run of `Generate` with the generator built by `NewGenerator`, the perimeters
step has stored a three-list artifact under "perimeter" for every layer before the bottom
layers step starts, and the store the renderers read has, for every layer, that artifact
under "perimeter" and a list of the expected type under "bottomLayer"; so the branches for
a wrongly typed "perimeter" entry are never taken. -/
theorem Generate_metadata_shapes (c : Clip) (options : Options)
    (layers : List PartitionedLayer) :
    ∃ meta₁ meta₂ : List LayerMetadata,
      (NewGenerator c options).stepLayers (perimetersStep c) layers
        (List.range layers.length) [] = some meta₁ ∧
      (∀ i : Nat, i < layers.length → ∃ m : LayerMetadata, meta₁[i]? = some m ∧
        ∃ p0 p1 p2, m.Elements "perimeter" = some (Element.perimeter p0 p1 p2)) ∧
      (NewGenerator c options).stepLayers (bottomLayersStep c) layers
        (List.range layers.length) meta₁ = some meta₂ ∧
      (NewGenerator c options).runSteps layers (NewGenerator c options).steps [] = some meta₂ ∧
      (∀ i : Nat, i < layers.length → ∃ m : LayerMetadata, meta₂[i]? = some m ∧
        (∃ p0 p1 p2, m.Elements "perimeter" = some (Element.perimeter p0 p1 p2)) ∧
        (∃ l, m.Elements "bottomLayer" = some (Element.pathsList l))) ∧
      (NewGenerator c options).Generate layers =
        ((NewGenerator c options).renderLayers meta₂ (List.range layers.length)
          (NewGenerator c options).init).map (NewGenerator c options).finish := by
  obtain ⟨meta₁, meta₂, h₁, hlen₁, hgood₁, h₂, hlen₂, hgood₂, hrun⟩ :=
    pipeline_NewGenerator c options layers
  refine ⟨meta₁, meta₂, h₁, ?_, h₂, hrun, ?_, ?_⟩
  · intro i hi
    have hget : meta₁[i]? = some meta₁[i] := List.getElem?_eq_getElem (by omega)
    exact ⟨_, hget, (hgood₁ i _ hget).1⟩
  · intro i hi
    have hget : meta₂[i]? = some meta₂[i] := List.getElem?_eq_getElem (by omega)
    obtain ⟨hp, ⟨l, hl, _⟩, _⟩ := hgood₂ i _ hget
    exact ⟨_, hget, hp, l, hl⟩
  · unfold generator.Generate
    simp only [hrun]
    cases (NewGenerator c options).renderLayers meta₂ (List.range layers.length)
      (NewGenerator c options).init <;> rfl

/-- C17 (as the code has it): when the bottom layers step runs on layer 0 and the value
under "perimeter" is absent or is not a three-list artifact, the step does not fail and
returns the metadata of layer 0 as it is: no tag is written, "bottomLayer" included. -/
theorem bottomLayersStep_mismatch (c : Clip) (layers : List PartitionedLayer)
    (meta : List LayerMetadata) (options : Options) (m : LayerMetadata)
    (hm : meta[0]? = some m)
    (hshape : ∀ p0 p1 p2, m.Elements "perimeter" ≠ some (Element.perimeter p0 p1 p2)) :
    bottomLayersStep c 0 layers meta options = some m := by
  unfold bottomLayersStep
  -- the default branch of the match is selected: `hshape` excludes the first pattern
  simp only [hm, if_true]

/-- Witness of C17 (amended): layer 0 with no tag set. -/
theorem bottomLayersStep_mismatch_witness :
    bottomLayersStep exampleClip 0 [[]] [emptyMetadata] exampleOptions = some emptyMetadata :=
  bottomLayersStep_mismatch exampleClip [[]] [emptyMetadata] exampleOptions emptyMetadata rfl
    (by intro p0 p1 p2 h; simp [emptyMetadata] at h)

/-- Counterexample to C17 as stated: on layer 0 with no "perimeter" entry the step returns
metadata in which "bottomLayer" is absent; it does not hold an empty list. -/
theorem bottomLayersStep_mismatch_counterexample :
    (bottomLayersStep exampleClip 0 [[]] [emptyMetadata] exampleOptions).map
        (fun m => m.Elements "bottomLayer") = some none ∧
    ¬ ∃ m : LayerMetadata,
        bottomLayersStep exampleClip 0 [[]] [emptyMetadata] exampleOptions = some m ∧
        m.Elements "bottomLayer" = some (Element.pathsList []) := by
  have h : bottomLayersStep exampleClip 0 [[]] [emptyMetadata] exampleOptions
      = some emptyMetadata := rfl
  refine ⟨by rw [h]; rfl, ?_⟩
  rintro ⟨m, hm, hb⟩
  rw [h] at hm
  simp only [Option.some.injEq] at hm
  subst hm
  simp [emptyMetadata] at hb


/-! ### The renderers -/

theorem renderPaths_spec (speed : Rat) (z : Int) :
    ∀ (paths : Paths) (b : gcodeBuilder),
      (renderPaths speed z paths b).buf = b.buf ++ paths.map (fun path =>
        Emitted.polygon path z speed b.layerThickness b.extrusionWidth b.filamentDiameter) ∧
      (renderPaths speed z paths b).layerThickness = b.layerThickness ∧
      (renderPaths speed z paths b).extrusionWidth = b.extrusionWidth ∧
      (renderPaths speed z paths b).filamentDiameter = b.filamentDiameter := by
  intro paths
  induction paths with
  | nil => intro b; simp [renderPaths]
  | cons path rest ih =>
    intro b
    unfold renderPaths
    obtain ⟨h1, h2, h3, h4⟩ := ih ((b.setExtrudeSpeed speed).addPolygon path z)
    rw [h1, h2, h3, h4]
    simp [gcodeBuilder.addPolygon, gcodeBuilder.setExtrudeSpeed]

theorem renderPerimeter_spec (z : Int) :
    ∀ (l : List GCodePaths) (b : gcodeBuilder),
      (renderPerimeter z l b).buf = b.buf ++ l.flatMap (fun g => g.paths.map (fun path =>
        Emitted.polygon path z g.Speed b.layerThickness b.extrusionWidth b.filamentDiameter)) ∧
      (renderPerimeter z l b).layerThickness = b.layerThickness ∧
      (renderPerimeter z l b).extrusionWidth = b.extrusionWidth ∧
      (renderPerimeter z l b).filamentDiameter = b.filamentDiameter := by
  intro l
  induction l with
  | nil => intro b; simp [renderPerimeter]
  | cons g rest ih =>
    intro b
    unfold renderPerimeter
    obtain ⟨h1, h2, h3, h4⟩ := ih (renderPaths g.Speed z g.paths b)
    obtain ⟨k1, k2, k3, k4⟩ := renderPaths_spec g.Speed z g.paths b
    rw [h1, h2, h3, h4, k1, k2, k3, k4]
    simp [List.flatMap_cons]

theorem renderPerimeters_three (z : Int) (p0 p1 p2 : List GCodePaths) (b : gcodeBuilder) :
    (renderPerimeters z 0 [p0, p1, p2] b).buf =
      b.buf ++ (Emitted.comment "TYPE:WALL-OUTER" ::
        (p0.flatMap (fun g => g.paths.map (fun path =>
            Emitted.polygon path z g.Speed b.layerThickness b.extrusionWidth
              b.filamentDiameter)) ++
         Emitted.comment "TYPE:WALL-INNER" ::
          (p1.flatMap (fun g => g.paths.map (fun path =>
              Emitted.polygon path z g.Speed b.layerThickness b.extrusionWidth
                b.filamentDiameter)) ++
           Emitted.comment "TYPE:WALL-INNER" ::
            p2.flatMap (fun g => g.paths.map (fun path =>
              Emitted.polygon path z g.Speed b.layerThickness b.extrusionWidth
                b.filamentDiameter))))) := by
  simp only [renderPerimeters]
  obtain ⟨h1, h2, h3, h4⟩ := renderPerimeter_spec z p0 (b.addComment "TYPE:WALL-OUTER")
  obtain ⟨k1, k2, k3, k4⟩ := renderPerimeter_spec z p1
    ((renderPerimeter z p0 (b.addComment "TYPE:WALL-OUTER")).addComment "TYPE:WALL-INNER")
  obtain ⟨j1, _, _, _⟩ := renderPerimeter_spec z p2
    ((renderPerimeter z p1
      ((renderPerimeter z p0 (b.addComment "TYPE:WALL-OUTER")).addComment
        "TYPE:WALL-INNER")).addComment "TYPE:WALL-INNER")
  simp only [if_true, Nat.zero_add, Nat.reduceAdd, Nat.succ_ne_zero, OfNat.ofNat_ne_zero,
    if_false, one_ne_zero] at j1 ⊢
  rw [j1]
  simp only [gcodeBuilder.addComment] at h1 h2 h3 h4 k1 k2 k3 k4 ⊢
  rw [k1, k2, k3, k4, h1, h2, h3, h4]
  simp

/-- C18: for a layer whose "perimeter" tag holds `[outer, middle, inner]` the perimeters
renderer appends to the buffer the comment 'TYPE:WALL-OUTER' and the traversals of the
outer paths, then 'TYPE:WALL-INNER' and the traversals of the middle paths, then
'TYPE:WALL-INNER' and the traversals of the inner paths, each list and each path in stored
order; every traversal is at the height `z` passed to the renderer and is emitted with the
feed set to the `Speed` of the `GCodePaths` that holds the path. -/
theorem perimetersRenderer_output (builder : gcodeBuilder) (layerNr : Nat)
    (meta : List LayerMetadata) (z : Int) (options : Options) (m : LayerMetadata)
    (outer middle inner : List GCodePaths)
    (hm : meta[layerNr]? = some m)
    (hp : m.Elements "perimeter" = some (Element.perimeter outer middle inner)) :
    ∃ b' : gcodeBuilder,
      perimetersRenderer builder layerNr meta z options = some b' ∧
      b'.buf =
        builder.buf ++ (Emitted.comment "TYPE:WALL-OUTER" ::
          (outer.flatMap (fun g => g.paths.map (fun path =>
              Emitted.polygon path z g.Speed builder.layerThickness builder.extrusionWidth
                builder.filamentDiameter)) ++
           Emitted.comment "TYPE:WALL-INNER" ::
            (middle.flatMap (fun g => g.paths.map (fun path =>
                Emitted.polygon path z g.Speed builder.layerThickness builder.extrusionWidth
                  builder.filamentDiameter)) ++
             Emitted.comment "TYPE:WALL-INNER" ::
              inner.flatMap (fun g => g.paths.map (fun path =>
                Emitted.polygon path z g.Speed builder.layerThickness builder.extrusionWidth
                  builder.filamentDiameter))))) := by
  refine ⟨renderPerimeters z 0 [outer, middle, inner] builder, ?_,
    renderPerimeters_three z outer middle inner builder⟩
  unfold perimetersRenderer
  simp only [hm, hp]

/-- Witness of C18: one outer loop with feed 40 and one inner loop with feed 60 on a layer at
height 500. -/
theorem perimetersRenderer_output_witness :
    ∃ b' : gcodeBuilder,
      perimetersRenderer newGCodeBuilder 0
        [emptyMetadata.set "perimeter" (Element.perimeter
          [{ paths := [[⟨0, 0⟩, ⟨9, 0⟩, ⟨9, 9⟩]], Speed := 40 }] []
          [{ paths := [[⟨2, 2⟩, ⟨7, 2⟩, ⟨7, 7⟩]], Speed := 60 }])]
        500 exampleOptions = some b' ∧
      b'.buf =
        [Emitted.comment "TYPE:WALL-OUTER",
         Emitted.polygon [⟨0, 0⟩, ⟨9, 0⟩, ⟨9, 9⟩] 500 40 0 0 0,
         Emitted.comment "TYPE:WALL-INNER",
         Emitted.comment "TYPE:WALL-INNER",
         Emitted.polygon [⟨2, 2⟩, ⟨7, 2⟩, ⟨7, 7⟩] 500 60 0 0 0] := by
  obtain ⟨b', h, hbuf⟩ := perimetersRenderer_output newGCodeBuilder 0
    [emptyMetadata.set "perimeter" (Element.perimeter
      [{ paths := [[⟨0, 0⟩, ⟨9, 0⟩, ⟨9, 9⟩]], Speed := 40 }] []
      [{ paths := [[⟨2, 2⟩, ⟨7, 2⟩, ⟨7, 7⟩]], Speed := 60 }])]
    500 exampleOptions _ _ _ _ rfl rfl
  refine ⟨b', h, ?_⟩
  rw [hbuf]
  rfl


theorem renderBottomPaths_spec (z : Int) :
    ∀ (paths : Paths) (b : gcodeBuilder),
      renderBottomPaths z paths b =
        { b with buf := b.buf ++ paths.map (fun path =>
            Emitted.polygon path z b.extrudeSpeed b.layerThickness b.extrusionWidth
              b.filamentDiameter) } := by
  intro paths
  induction paths with
  | nil => intro b; simp [renderBottomPaths]
  | cons path rest ih =>
    intro b
    unfold renderBottomPaths
    rw [ih]
    simp [gcodeBuilder.addPolygon]

theorem renderBottomLayer_spec (z : Int) :
    ∀ (layer : List Paths) (b : gcodeBuilder),
      renderBottomLayer z layer b =
        { b with buf := b.buf ++ layer.flatten.map (fun path =>
            Emitted.polygon path z b.extrudeSpeed b.layerThickness b.extrusionWidth
              b.filamentDiameter) } := by
  intro layer
  induction layer with
  | nil => intro b; simp [renderBottomLayer]
  | cons paths rest ih =>
    intro b
    unfold renderBottomLayer
    rw [ih, renderBottomPaths_spec]
    simp

theorem bottomLayerRenderer_spec (builder : gcodeBuilder) (layerNr : Nat)
    (meta : List LayerMetadata) (z : Int) (options : Options) (m : LayerMetadata)
    (l : List Paths) (hm : meta[layerNr]? = some m)
    (hb : m.Elements "bottomLayer" = some (Element.pathsList l)) :
    ∃ b' : gcodeBuilder,
      bottomLayerRenderer builder layerNr meta z options = some b' ∧
      b'.buf = builder.buf ++ (Emitted.comment "bottomLayer" ::
        l.flatten.map (fun path =>
          Emitted.polygon path z builder.extrudeSpeed builder.layerThickness
            builder.extrusionWidth builder.filamentDiameter)) := by
  refine ⟨renderBottomLayer z l (builder.addComment "bottomLayer"), ?_, ?_⟩
  · unfold bottomLayerRenderer
    simp only [hm, hb]
  · rw [renderBottomLayer_spec]
    simp [gcodeBuilder.addComment]

theorem renderLayer_NewGenerator (c : Clip) (options : Options) (meta : List LayerMetadata)
    (layerNr : Nat) (m : LayerMetadata) (p0 p1 p2 : List GCodePaths) (l : List Paths)
    (hm : meta[layerNr]? = some m)
    (hp : m.Elements "perimeter" = some (Element.perimeter p0 p1 p2))
    (hb : m.Elements "bottomLayer" = some (Element.pathsList l)) (b : gcodeBuilder) :
    ∃ (b' : gcodeBuilder) (rest : List Emitted),
      (NewGenerator c options).renderLayer meta layerNr (NewGenerator c options).renderers b
        = some b' ∧
      b'.buf = b.buf ++ (Emitted.comment ("LAYER:" ++ toString layerNr) ::
        ((if layerNr = 2 then [Emitted.command "M106 ; enable fan"] else []) ++
          Emitted.comment "TYPE:WALL-OUTER" :: rest)) ∧
      ∀ e ∈ rest, ∀ t, e ≠ Emitted.command t := by
  -- the builder after each of the four renderers
  have hpre : ∃ b₁ : gcodeBuilder,
      preLayerRenderer b layerNr meta
        ((NewGenerator c options).options.Print.InitialLayerThickness +
          (layerNr : Int) * (NewGenerator c options).options.Print.LayerThickness)
        (NewGenerator c options).options = some b₁ ∧
      b₁.buf = b.buf ++ [Emitted.comment ("LAYER:" ++ toString layerNr)] := by
    unfold preLayerRenderer
    by_cases h0 : layerNr = 0
    · exact ⟨(b.addComment ("LAYER:" ++ toString layerNr)).setExtrudeSpeed
        (NewGenerator c options).options.Print.IntialLayerSpeed, by simp only [if_pos h0], rfl⟩
    · exact ⟨(b.addComment ("LAYER:" ++ toString layerNr)).setExtrudeSpeed
        (NewGenerator c options).options.Print.LayerSpeed, by simp only [if_neg h0], rfl⟩
  obtain ⟨b₁, hr₁, hbuf₁⟩ := hpre
  have hfan : ∃ b₂ : gcodeBuilder,
      fanControlRenderer b₁ layerNr meta
        ((NewGenerator c options).options.Print.InitialLayerThickness +
          (layerNr : Int) * (NewGenerator c options).options.Print.LayerThickness)
        (NewGenerator c options).options = some b₂ ∧
      b₂.buf = b₁.buf ++
        (if layerNr = 2 then [Emitted.command "M106 ; enable fan"] else []) := by
    unfold fanControlRenderer
    by_cases h2 : layerNr = 2
    · exact ⟨b₁.addCommand "M106 ; enable fan", by simp only [if_pos h2],
        by simp [gcodeBuilder.addCommand, h2]⟩
    · exact ⟨b₁, by simp only [if_neg h2], by simp [h2]⟩
  obtain ⟨b₂, hr₂, hbuf₂⟩ := hfan
  obtain ⟨b₃, hr₃, hbuf₃⟩ := perimetersRenderer_output b₂ layerNr meta
    ((NewGenerator c options).options.Print.InitialLayerThickness +
      (layerNr : Int) * (NewGenerator c options).options.Print.LayerThickness)
    (NewGenerator c options).options m p0 p1 p2 hm hp
  obtain ⟨b₄, hr₄, hbuf₄⟩ := bottomLayerRenderer_spec b₃ layerNr meta
    ((NewGenerator c options).options.Print.InitialLayerThickness +
      (layerNr : Int) * (NewGenerator c options).options.Print.LayerThickness)
    (NewGenerator c options).options m l hm hb
  have h₃ : ∃ r₃ : List Emitted, b₃.buf = b₂.buf ++ Emitted.comment "TYPE:WALL-OUTER" :: r₃ ∧
      ∀ e ∈ r₃, ∀ t, e ≠ Emitted.command t := by
    refine ⟨_, hbuf₃, ?_⟩
    intro e he t
    simp only [List.mem_append, List.mem_cons, List.mem_flatMap, List.mem_map] at he
    rcases he with he | he | he | he | he
    · obtain ⟨g, _, path, _, rfl⟩ := he; simp
    · subst he; simp
    · obtain ⟨g, _, path, _, rfl⟩ := he; simp
    · subst he; simp
    · obtain ⟨g, _, path, _, rfl⟩ := he; simp
  have h₄ : ∃ r₄ : List Emitted, b₄.buf = b₃.buf ++ r₄ ∧
      ∀ e ∈ r₄, ∀ t, e ≠ Emitted.command t := by
    refine ⟨_, hbuf₄, ?_⟩
    intro e he t
    simp only [List.mem_cons, List.mem_map] at he
    rcases he with he | he
    · subst he; simp
    · obtain ⟨path, _, rfl⟩ := he; simp
  obtain ⟨r₃, hb₃, hn₃⟩ := h₃
  obtain ⟨r₄, hb₄, hn₄⟩ := h₄
  refine ⟨b₄, r₃ ++ r₄, ?_, ?_, ?_⟩
  · have hrs : (NewGenerator c options).renderers =
        [preLayerRenderer, fanControlRenderer, perimetersRenderer, bottomLayerRenderer] := rfl
    rw [hrs]
    simp only [generator.renderLayer, hr₁, hr₂, hr₃, hr₄]
  · rw [hb₄, hb₃, hbuf₂, hbuf₁]
    simp only [List.append_assoc, List.singleton_append, List.cons_append, List.nil_append]
  · intro e he t
    rcases List.mem_append.1 he with h | h
    · exact hn₃ e h t
    · exact hn₄ e h t

theorem renderLayers_NewGenerator (c : Clip) (options : Options) (meta : List LayerMetadata) :
    ∀ (layerNrs : List Nat) (b : gcodeBuilder),
      (∀ n ∈ layerNrs, ∃ (m : LayerMetadata) (p0 p1 p2 : List GCodePaths) (l : List Paths),
        meta[n]? = some m ∧ m.Elements "perimeter" = some (Element.perimeter p0 p1 p2) ∧
        m.Elements "bottomLayer" = some (Element.pathsList l)) →
      ∃ (b' : gcodeBuilder) (body : List Emitted),
        (NewGenerator c options).renderLayers meta layerNrs b = some b' ∧
        b'.buf = b.buf ++ body ∧
        (2 ∉ layerNrs → Emitted.command "M106 ; enable fan" ∉ body) ∧
        (layerNrs = [] → body = []) := by
  intro layerNrs
  induction layerNrs with
  | nil =>
    intro b _
    exact ⟨b, [], rfl, by simp, by simp, fun _ => rfl⟩
  | cons n rest ih =>
    intro b hgood
    obtain ⟨m, p0, p1, p2, l, hm, hp, hb⟩ := hgood n (List.mem_cons_self _ _)
    obtain ⟨b₁, r, hr, hbuf, hn⟩ := renderLayer_NewGenerator c options meta n m p0 p1 p2 l hm hp hb b
    obtain ⟨b₂, body, hr₂, hbuf₂, hfan, _⟩ :=
      ih b₁ (fun k hk => hgood k (List.mem_cons_of_mem _ hk))
    refine ⟨b₂, (Emitted.comment ("LAYER:" ++ toString n) ::
        ((if n = 2 then [Emitted.command "M106 ; enable fan"] else []) ++
          Emitted.comment "TYPE:WALL-OUTER" :: r)) ++ body, ?_, ?_, ?_, ?_⟩
    · unfold generator.renderLayers
      simp only [hr, hr₂]
    · rw [hbuf₂, hbuf, List.append_assoc]
    · intro h2 hmem
      have hn2 : n ≠ 2 := fun h => h2 (by simp [h])
      have h2r : 2 ∉ rest := fun h => h2 (List.mem_cons_of_mem _ h)
      simp only [if_neg hn2, List.nil_append, List.mem_append, List.mem_cons] at hmem
      rcases hmem with (h | h | h) | h
      · simp at h
      · simp at h
      · exact hn _ h _ rfl
      · exact hfan h2r h
    · intro h
      simp at h

theorem renderLayers_append (g : generator) (meta : List LayerMetadata) :
    ∀ (l₁ l₂ : List Nat) (b : gcodeBuilder),
      g.renderLayers meta (l₁ ++ l₂) b =
        (match g.renderLayers meta l₁ b with
          | none => none
          | some b' => g.renderLayers meta l₂ b') := by
  intro l₁
  induction l₁ with
  | nil => intro l₂ b; rfl
  | cons n rest ih =>
    intro l₂ b
    simp only [List.cons_append, generator.renderLayers]
    cases g.renderLayer meta n g.renderers b with
    | none => rfl
    | some b' => exact ih l₂ b'

theorem Generate_NewGenerator_eq (c : Clip) (options : Options)
    (layers : List PartitionedLayer) :
    ∃ meta : List LayerMetadata,
      (NewGenerator c options).runSteps layers (NewGenerator c options).steps [] = some meta ∧
      (∀ n ∈ List.range layers.length,
        ∃ (m : LayerMetadata) (p0 p1 p2 : List GCodePaths) (l : List Paths),
          meta[n]? = some m ∧ m.Elements "perimeter" = some (Element.perimeter p0 p1 p2) ∧
          m.Elements "bottomLayer" = some (Element.pathsList l)) ∧
      (NewGenerator c options).Generate layers =
        (match (NewGenerator c options).renderLayers meta (List.range layers.length)
            (NewGenerator c options).init with
          | none => none
          | some b => some (b.buf ++ [Emitted.command "M107 ; enable fan"])) := by
  obtain ⟨_, meta, _, _, _, _, hlen, hgood, hrun⟩ := pipeline_NewGenerator c options layers
  refine ⟨meta, hrun, ?_, ?_⟩
  · intro n hn
    have hlt : n < meta.length := by
      rw [hlen]; exact List.mem_range.1 hn
    have hget : meta[n]? = some meta[n] := List.getElem?_eq_getElem hlt
    obtain ⟨⟨p0, p1, p2, hp⟩, ⟨l, hl, _⟩, _⟩ := hgood n _ hget
    exact ⟨_, p0, p1, p2, l, hget, hp, hl⟩
  · unfold generator.Generate
    simp only [hrun]
    cases (NewGenerator c options).renderLayers meta (List.range layers.length)
      (NewGenerator c options).init <;> rfl

/-- C14: for every input, zero layers included, the generator built by `NewGenerator`
returns a buffer that begins with the comment 'Generated with GoSlice' and the five priming
commands, ends with the one command 'M107 ; enable fan', and has in between exactly what
the renderers appended for the layers (nothing when there is no layer). -/
theorem Generate_preamble_and_end (c : Clip) (options : Options)
    (layers : List PartitionedLayer) :
    ∃ (meta : List LayerMetadata) (b' : gcodeBuilder) (body : List Emitted),
      (NewGenerator c options).runSteps layers (NewGenerator c options).steps [] = some meta ∧
      (NewGenerator c options).init.buf =
        [Emitted.comment "Generated with GoSlice",
         Emitted.command "G1 X0 Y20 Z0.2 F3000 ; get ready to prime",
         Emitted.command "G92 E0 ; reset extrusion distance",
         Emitted.command "G1 X200 E20 F600 ; prime nozzle",
         Emitted.command "G1 Z5 F5000 ; lift nozzle",
         Emitted.command "G92 E0 ; reset extrusion distance"] ∧
      (NewGenerator c options).renderLayers meta (List.range layers.length)
        (NewGenerator c options).init = some b' ∧
      b'.buf = (NewGenerator c options).init.buf ++ body ∧
      (NewGenerator c options).Generate layers =
        some ([Emitted.comment "Generated with GoSlice",
               Emitted.command "G1 X0 Y20 Z0.2 F3000 ; get ready to prime",
               Emitted.command "G92 E0 ; reset extrusion distance",
               Emitted.command "G1 X200 E20 F600 ; prime nozzle",
               Emitted.command "G1 Z5 F5000 ; lift nozzle",
               Emitted.command "G92 E0 ; reset extrusion distance"] ++ body ++
              [Emitted.command "M107 ; enable fan"]) ∧
      (layers = [] → body = []) := by
  obtain ⟨meta, hrun, hgood, hgen⟩ := Generate_NewGenerator_eq c options layers
  obtain ⟨b', body, hr, hbuf, _, hnil⟩ :=
    renderLayers_NewGenerator c options meta (List.range layers.length)
      (NewGenerator c options).init hgood
  have hinit : (NewGenerator c options).init.buf =
      [Emitted.comment "Generated with GoSlice",
       Emitted.command "G1 X0 Y20 Z0.2 F3000 ; get ready to prime",
       Emitted.command "G92 E0 ; reset extrusion distance",
       Emitted.command "G1 X200 E20 F600 ; prime nozzle",
       Emitted.command "G1 Z5 F5000 ; lift nozzle",
       Emitted.command "G92 E0 ; reset extrusion distance"] := rfl
  refine ⟨meta, b', body, hrun, hinit, hr, hbuf, ?_, ?_⟩
  · rw [hgen]
    simp only [hr, hbuf, hinit]
  · intro hl
    apply hnil
    rw [hl]
    rfl


theorem layer_two_marker : "LAYER:" ++ toString (2 : Nat) = "LAYER:2" := by decide

theorem fan_not_in_init (c : Clip) (options : Options) :
    Emitted.command "M106 ; enable fan" ∉ (NewGenerator c options).init.buf := by
  have hinit : (NewGenerator c options).init.buf =
      [Emitted.comment "Generated with GoSlice",
       Emitted.command "G1 X0 Y20 Z0.2 F3000 ; get ready to prime",
       Emitted.command "G92 E0 ; reset extrusion distance",
       Emitted.command "G1 X200 E20 F600 ; prime nozzle",
       Emitted.command "G1 Z5 F5000 ; lift nozzle",
       Emitted.command "G92 E0 ; reset extrusion distance"] := rfl
  rw [hinit]
  decide

/-- C15: the generator built by `NewGenerator` never emits 'M106 ; enable fan' for an input
of at most two layers; for an input of three layers or more it emits it exactly once,
right after the comment 'LAYER:2' and right before the comment 'TYPE:WALL-OUTER' that opens
the perimeter output of that layer. -/
theorem Generate_fan_once (c : Clip) (options : Options) (layers : List PartitionedLayer) :
    ∃ out : List Emitted,
      (NewGenerator c options).Generate layers = some out ∧
      (layers.length ≤ 2 → Emitted.command "M106 ; enable fan" ∉ out) ∧
      (3 ≤ layers.length → ∃ pre post : List Emitted,
        out = pre ++ [Emitted.comment "LAYER:2", Emitted.command "M106 ; enable fan",
          Emitted.comment "TYPE:WALL-OUTER"] ++ post ∧
        Emitted.command "M106 ; enable fan" ∉ pre ∧
        Emitted.command "M106 ; enable fan" ∉ post) := by
  obtain ⟨meta, _, hgood, hgen⟩ := Generate_NewGenerator_eq c options layers
  obtain ⟨b', body, hr, hbuf, hfan, _⟩ :=
    renderLayers_NewGenerator c options meta (List.range layers.length)
      (NewGenerator c options).init hgood
  refine ⟨b'.buf ++ [Emitted.command "M107 ; enable fan"], ?_, ?_, ?_⟩
  · rw [hgen]
    simp only [hr]
  · intro hle hmem
    have h2 : 2 ∉ List.range layers.length := by
      rw [List.mem_range]; omega
    rw [hbuf] at hmem
    simp only [List.mem_append, List.mem_singleton] at hmem
    rcases hmem with (h | h) | h
    · exact fan_not_in_init c options h
    · exact hfan h2 h
    · simp at h
  · intro hge
    obtain ⟨k, hk⟩ : ∃ k, layers.length = k + 3 := ⟨layers.length - 3, by omega⟩
    have hsplit : List.range layers.length = [0, 1] ++ (2 :: List.range' 3 k) := by
      rw [hk, List.range_eq_range']
      rfl
    rw [hsplit] at hr hgood
    rw [renderLayers_append] at hr
    obtain ⟨b₁, body₁, hr₁, hbuf₁, hfan₁, _⟩ :=
      renderLayers_NewGenerator c options meta [0, 1] (NewGenerator c options).init
        (fun n hn => hgood n (List.mem_append_left _ hn))
    simp only [hr₁] at hr
    obtain ⟨m, p0, p1, p2, l, hm, hp, hb⟩ :=
      hgood 2 (List.mem_append_right _ (List.mem_cons_self _ _))
    obtain ⟨b₂, r, hr₂, hbuf₂, hn₂⟩ :=
      renderLayer_NewGenerator c options meta 2 m p0 p1 p2 l hm hp hb b₁
    obtain ⟨b₃, body₃, hr₃, hbuf₃, hfan₃, _⟩ :=
      renderLayers_NewGenerator c options meta (List.range' 3 k) b₂
        (fun n hn => hgood n (List.mem_append_right _ (List.mem_cons_of_mem _ hn)))
    unfold generator.renderLayers at hr
    simp only [hr₂, hr₃, Option.some.injEq] at hr
    subst hr
    refine ⟨(NewGenerator c options).init.buf ++ body₁,
      r ++ body₃ ++ [Emitted.command "M107 ; enable fan"], ?_, ?_, ?_⟩
    · rw [hbuf₃, hbuf₂, hbuf₁, layer_two_marker]
      simp only [if_true, List.append_assoc, List.singleton_append, List.cons_append,
        List.nil_append]
    · intro hmem
      rcases List.mem_append.1 hmem with h | h
      · exact fan_not_in_init c options h
      · exact hfan₁ (by decide) h
    · intro hmem
      simp only [List.mem_append, List.mem_singleton] at hmem
      rcases hmem with (h | h) | h
      · exact hn₂ _ h _ rfl
      · refine hfan₃ ?_ h
        intro h2
        have := (List.mem_range'_1.1 h2).1
        omega
      · simp at h

/-- Witness of C15: three empty layers (one fan command, in layer 2) and two empty layers
(no fan command). -/
theorem Generate_fan_once_witness :
    (∃ out pre post : List Emitted,
      (NewGenerator exampleClip exampleOptions).Generate [[], [], []] = some out ∧
      out = pre ++ [Emitted.comment "LAYER:2", Emitted.command "M106 ; enable fan",
          Emitted.comment "TYPE:WALL-OUTER"] ++ post ∧
      Emitted.command "M106 ; enable fan" ∉ pre ∧
      Emitted.command "M106 ; enable fan" ∉ post) ∧
    (∃ out : List Emitted,
      (NewGenerator exampleClip exampleOptions).Generate [[], []] = some out ∧
      Emitted.command "M106 ; enable fan" ∉ out) := by
  constructor
  · obtain ⟨out, h, _, h3⟩ := Generate_fan_once exampleClip exampleOptions [[], [], []]
    obtain ⟨pre, post, hout, hpre, hpost⟩ := h3 (by decide)
    exact ⟨out, pre, post, h, hout, hpre, hpost⟩
  · obtain ⟨out, h, h2, _⟩ := Generate_fan_once exampleClip exampleOptions [[], []]
    exact ⟨out, h, h2 (by decide)⟩

/-- C16, the code at the case to settle: on layer 1 of a two-layer input the bottom layers
step stores the list it declared and never appended to (a `nil` slice of type
`[]data.Paths`, which is not the `nil` interface), and the bottom layer renderer, reading
it, emits the comment 'bottomLayer'; the output of `Generate` carries that comment once
per layer. -/
theorem bottomLayer_marker_on_upper_layer :
    (bottomLayersStep exampleClip 1 [[], []] [emptyMetadata, emptyMetadata] exampleOptions).map
        (fun m => m.Elements "bottomLayer") = some (some (Element.pathsList [])) ∧
    (bottomLayerRenderer newGCodeBuilder 1
        [emptyMetadata, emptyMetadata.set "bottomLayer" (Element.pathsList [])] 500
        exampleOptions).map (fun b => b.buf) = some [Emitted.comment "bottomLayer"] ∧
    ((NewGenerator exampleClip exampleOptions).Generate [[], []]).map
        (fun out => out.count (Emitted.comment "bottomLayer")) = some 2 := by
  refine ⟨rfl, rfl, ?_⟩
  decide


end GoSlice
